import Mathlib

/-!
A shallow embedding of the chesspirito chess engine (`src/engine.ts`, current
revision with castling, en passant, promotion and undo) and proofs about it.

Modelling conventions:
* TypeScript objects become Lean structures; in-place mutation becomes explicit
  state passing.  Piece objects are values; where the source mutates a piece
  object that is also referenced from a board square (`piece.history.push`),
  the embedding re-stores the updated value at the square the object occupies
  at that point (justified by the board-restoration lemma for the legality
  probe, proved below).
* `throw new Error(...)` becomes `Except.error` with the exact message string.
* JavaScript arrays indexed from the end (`push`/`pop`) become `List` with
  `++ [x]` / `dropLast` / `getLast?`.
* The `while` loop of the sliding generator and the FEN placement loop are
  given fuel 8, which is exact: both loops advance a bounded index by at least
  one per iteration inside the 0..7 range.
-/

inductive Color
  | w
  | b
deriving DecidableEq

def getOppositeColor (color : Color) : Color :=
  match color with
  | Color.w => Color.b
  | Color.b => Color.w

inductive Piece
  | WHITE_PAWN
  | WHITE_KNIGHT
  | WHITE_BISHOP
  | WHITE_ROOK
  | WHITE_QUEEN
  | WHITE_KING
  | BLACK_PAWN
  | BLACK_KNIGHT
  | BLACK_BISHOP
  | BLACK_ROOK
  | BLACK_QUEEN
  | BLACK_KING
deriving DecidableEq

/-- The string value of the `Piece` enum member (used by FEN parsing and LAN). -/
def Piece.str : Piece → String
  | .WHITE_PAWN => "P"
  | .WHITE_KNIGHT => "N"
  | .WHITE_BISHOP => "B"
  | .WHITE_ROOK => "R"
  | .WHITE_QUEEN => "Q"
  | .WHITE_KING => "K"
  | .BLACK_PAWN => "p"
  | .BLACK_KNIGHT => "n"
  | .BLACK_BISHOP => "b"
  | .BLACK_ROOK => "r"
  | .BLACK_QUEEN => "q"
  | .BLACK_KING => "k"

/-- `Object.values(Piece).includes(char)`: which characters denote pieces. -/
def charToPiece (c : Char) : Option Piece :=
  if c = 'P' then some Piece.WHITE_PAWN
  else if c = 'N' then some Piece.WHITE_KNIGHT
  else if c = 'B' then some Piece.WHITE_BISHOP
  else if c = 'R' then some Piece.WHITE_ROOK
  else if c = 'Q' then some Piece.WHITE_QUEEN
  else if c = 'K' then some Piece.WHITE_KING
  else if c = 'p' then some Piece.BLACK_PAWN
  else if c = 'n' then some Piece.BLACK_KNIGHT
  else if c = 'b' then some Piece.BLACK_BISHOP
  else if c = 'r' then some Piece.BLACK_ROOK
  else if c = 'q' then some Piece.BLACK_QUEEN
  else if c = 'k' then some Piece.BLACK_KING
  else none

/-- The color the `ChessPieceFactory` assigns to each piece type. -/
def pieceTypeColor : Piece → Color
  | .WHITE_PAWN | .WHITE_KNIGHT | .WHITE_BISHOP
  | .WHITE_ROOK | .WHITE_QUEEN | .WHITE_KING => Color.w
  | _ => Color.b

/-- `piece instanceof King` (the `King` class is exactly these two types). -/
def isKingType (t : Piece) : Bool :=
  t = Piece.WHITE_KING || t = Piece.BLACK_KING

/-- `piece instanceof Pawn`. -/
def isPawnType (t : Piece) : Bool :=
  t = Piece.WHITE_PAWN || t = Piece.BLACK_PAWN

inductive Promotion
  | N
  | B
  | R
  | Q
deriving DecidableEq

def Promotion.str : Promotion → String
  | .N => "N"
  | .B => "B"
  | .R => "R"
  | .Q => "Q"

structure Position where
  x : Int
  y : Int
deriving DecidableEq

structure Move where
  from' : Position
  to' : Position
  onlyMove : Bool
  onlyAttack : Bool
  enPassant : Bool
deriving DecidableEq

/-- A move record with no optional flags set. -/
def Move.plain (f t : Position) : Move :=
  ⟨f, t, false, false, false⟩

structure ChessPiece where
  type : Piece
  color : Color
  position : Position
  history : List Position
deriving DecidableEq

abbrev Square := Option ChessPiece

structure HistoryMove where
  from' : Position
  to' : Position
  capture : Square
  promotion : Square
  castling : Square
  lan : String
deriving DecidableEq

def isOutOfBounds (num : Int) : Bool :=
  num < 0 || num > 7

def isPositionOutOfBounds (pos : Position) : Bool :=
  isOutOfBounds pos.y || isOutOfBounds pos.x

def isSamePosition (pos1 pos2 : Position) : Bool :=
  pos1.x = pos2.x && pos1.y = pos2.y

def FILES : List String := ["a", "b", "c", "d", "e", "f", "g", "h"]

def RANKS : List Nat := [8, 7, 6, 5, 4, 3, 2, 1]

def DEFAULT_FEN : String := "rnbqkbnr/pppppppp/8/8/8/8/PPPPPPPP/RNBQKBNR w KQkq - 0 1"

structure Chesspirito where
  board : List (List Square)
  history : List HistoryMove
  gameOver : Option String
  whiteKingPosition : Option Position
  blackKingPosition : Option Position
  playingColor : Color
  check : Option Color
  currLegalMoves : List Move
  enPassantable : Option Position
deriving DecidableEq

instance : Inhabited Chesspirito :=
  ⟨⟨[], [], none, none, none, Color.w, none, [], none⟩⟩

/-- Read `board[pos.y][pos.x]` (the source always bounds-checks first). -/
def readBoard (b : List (List Square)) (pos : Position) : Square :=
  (b.getD pos.y.toNat []).getD pos.x.toNat none

/-- Write `board[pos.y][pos.x] = square`. -/
def writeBoard (b : List (List Square)) (pos : Position) (square : Square) :
    List (List Square) :=
  b.set pos.y.toNat ((b.getD pos.y.toNat []).set pos.x.toNat square)

def Chesspirito.getSquare (g : Chesspirito) (pos : Position) : Square :=
  readBoard g.board pos

/-- `setSquare`: stores the square; a stored piece gets its `position` field
updated in place, and king placements refresh the cached king position. -/
def Chesspirito.setSquare (g : Chesspirito) (pos : Position) (square : Square) :
    Chesspirito :=
  match square with
  | none => { g with board := writeBoard g.board pos none }
  | some piece0 =>
    let piece : ChessPiece := { piece0 with position := pos }
    let b := writeBoard g.board pos (some piece)
    if isKingType piece.type then
      if piece.color = Color.w then
        { g with board := b, whiteKingPosition := some pos }
      else
        { g with board := b, blackKingPosition := some pos }
    else
      { g with board := b }

def Chesspirito.isSquareEmpty (g : Chesspirito) (pos : Position) : Bool :=
  g.getSquare pos = none

def Chesspirito.togglePlayingColor (g : Chesspirito) : Chesspirito :=
  { g with playingColor := getOppositeColor g.playingColor }

def getMoveFromPosition (pos : Position) : String :=
  FILES.getD pos.x.toNat "?" ++ toString (RANKS.getD pos.y.toNat 0)

/-- `generateSlidingMoves` inner while-loop along one direction `(dy, dx)`.
Fuel 8 is exact: from an in-bounds coordinate a nonzero direction exits the
0..7 range within 8 steps. -/
def slideRay (g : Chesspirito) (piece : ChessPiece) (dy dx : Int) :
    Position → Nat → List Move
  | _, 0 => []
  | pos, fuel + 1 =>
    if isPositionOutOfBounds pos then []
    else
      let targetSquare := g.getSquare pos
      let keep : Bool :=
        match targetSquare with
        | none => true
        | some t => decide (t.color ≠ piece.color)
      let here : List Move := if keep then [Move.plain piece.position pos] else []
      match targetSquare with
      | none => here ++ slideRay g piece dy dx ⟨pos.x + dx, pos.y + dy⟩ fuel
      | some _ => here

/-- `generateSlidingMoves(piece, directions)`; directions are `[dy, dx]` pairs. -/
def generateSlidingMoves (g : Chesspirito) (piece : ChessPiece)
    (directions : List (Int × Int)) : List Move :=
  directions.flatMap fun d =>
    slideRay g piece d.1 d.2 ⟨piece.position.x + d.2, piece.position.y + d.1⟩ 8

/-- `Pawn.generateMoves`'s trailing filter (which also sets the `enPassant`
flag on the surviving move, mirrored here by `filterMap`). -/
def pawnFilterMove (g : Chesspirito) (self : ChessPiece) (m : Move) : Option Move :=
  if isPositionOutOfBounds m.to' then none
  else
    let piece := g.getSquare m.to'
    if piece.isSome && m.onlyMove then none
    else
      let enPassantHit : Bool :=
        match g.enPassantable with
        | none => false
        | some ep =>
          piece.isNone &&
            isSamePosition
              ⟨ep.x, ep.y + (if g.playingColor = Color.w then 1 else -1)⟩ m.to'
      if enPassantHit then some { m with enPassant := true }
      else if piece.isNone && m.onlyAttack then none
      else
        match piece with
        | some p => if p.color ≠ self.color then some m else none
        | none => some m

def pawnGenerateMoves (g : Chesspirito) (self : ChessPiece) : List Move :=
  let step : Int := if self.color = Color.w then -1 else 1
  let forwardMove : Move :=
    ⟨self.position, ⟨self.position.x, self.position.y + step⟩, true, false, false⟩
  let moves : List Move :=
    [forwardMove,
     ⟨self.position, ⟨self.position.x - 1, self.position.y + step⟩, false, true, false⟩,
     ⟨self.position, ⟨self.position.x + 1, self.position.y + step⟩, false, true, false⟩]
  let moves :=
    if self.history.length = 0 && g.isSquareEmpty forwardMove.to' then
      moves ++ [⟨self.position, ⟨self.position.x, self.position.y + step * 2⟩,
                true, false, false⟩]
    else moves
  moves.filterMap (pawnFilterMove g self)

def knightGenerateMoves (g : Chesspirito) (self : ChessPiece) : List Move :=
  let x := self.position.x
  let y := self.position.y
  let moves : List Move :=
    ([⟨x - 2, y - 1⟩, ⟨x - 1, y - 2⟩, ⟨x + 1, y - 2⟩, ⟨x + 2, y - 1⟩,
      ⟨x + 2, y + 1⟩, ⟨x + 1, y + 2⟩, ⟨x - 1, y + 2⟩, ⟨x - 2, y + 1⟩] :
        List Position).map fun pos => Move.plain self.position pos
  moves.filter fun m =>
    !isPositionOutOfBounds m.to' &&
      (match g.getSquare m.to' with
       | some p => decide (p.color ≠ self.color)
       | none => true)

def bishopGenerateMoves (g : Chesspirito) (self : ChessPiece) : List Move :=
  generateSlidingMoves g self [(-1, -1), (-1, 1), (1, 1), (1, -1)]

def rookGenerateMoves (g : Chesspirito) (self : ChessPiece) : List Move :=
  generateSlidingMoves g self [(0, -1), (-1, 0), (0, 1), (1, 0)]

def queenGenerateMoves (g : Chesspirito) (self : ChessPiece) : List Move :=
  generateSlidingMoves g self
    [(0, -1), (-1, 0), (0, 1), (1, 0), (-1, -1), (-1, 1), (1, 1), (1, -1)]

def kingGenerateMoves (g : Chesspirito) (self : ChessPiece) : List Move :=
  let x := self.position.x
  let y := self.position.y
  let moves : List Move :=
    ([⟨x - 1, y - 1⟩, ⟨x + 0, y - 1⟩, ⟨x + 1, y - 1⟩, ⟨x + 1, y + 0⟩,
      ⟨x + 1, y + 1⟩, ⟨x + 0, y + 1⟩, ⟨x - 1, y + 1⟩, ⟨x - 1, y + 0⟩] :
        List Position).map fun pos => Move.plain self.position pos
  moves.filter fun m =>
    !isPositionOutOfBounds m.to' &&
      (match g.getSquare m.to' with
       | some p => decide (p.color ≠ self.color)
       | none => true)

/-- Per-class `generateMoves` dispatch (class membership is determined by the
piece type, exactly as `ChessPieceFactory` constructs the classes). -/
def Chesspirito.pieceMoves (g : Chesspirito) (self : ChessPiece) : List Move :=
  match self.type with
  | .WHITE_PAWN | .BLACK_PAWN => pawnGenerateMoves g self
  | .WHITE_KNIGHT | .BLACK_KNIGHT => knightGenerateMoves g self
  | .WHITE_BISHOP | .BLACK_BISHOP => bishopGenerateMoves g self
  | .WHITE_ROOK | .BLACK_ROOK => rookGenerateMoves g self
  | .WHITE_QUEEN | .BLACK_QUEEN => queenGenerateMoves g self
  | .WHITE_KING | .BLACK_KING => kingGenerateMoves g self

def Chesspirito.generateMoves (g : Chesspirito) (color : Color) : List Move :=
  (List.range 8).flatMap fun y =>
    (List.range 8).flatMap fun x =>
      match g.getSquare ⟨(x : Int), (y : Int)⟩ with
      | some piece => if piece.color = color then g.pieceMoves piece else []
      | none => []

/-- The simulate-and-revert loop of `generateLegalMoves`, threading the
mutated board state. -/
def legalMovesLoop (kingType : Piece) (opponentColor : Color) :
    List Move → Chesspirito → List Move × Chesspirito
  | [], g => ([], g)
  | m :: rest, g =>
    let square := g.getSquare m.from'
    let targetSquare := g.getSquare m.to'
    let g1 := g.setSquare m.to' square
    let g2 := g1.setSquare m.from' none
    let opponentMoves := g2.generateMoves opponentColor
    let threatensKing := opponentMoves.any fun mv =>
      match g2.getSquare mv.to' with
      | some p => decide (p.type = kingType)
      | none => false
    let g3 := g2.setSquare m.to' targetSquare
    let g4 := g3.setSquare m.from' square
    let res := legalMovesLoop kingType opponentColor rest g4
    (if threatensKing then res.1 else m :: res.1, res.2)

def Chesspirito.generateLegalMoves (g : Chesspirito) (color : Color) :
    List Move × Chesspirito :=
  legalMovesLoop
    (if color = Color.w then Piece.WHITE_KING else Piece.BLACK_KING)
    (getOppositeColor color) (g.generateMoves color) g

def Chesspirito.isSquareAttacked (g : Chesspirito) (attackingColor : Color)
    (target : Position) : Bool :=
  (g.generateMoves attackingColor).any fun m =>
    if m.onlyMove then false else isSamePosition m.to' target

def Chesspirito.getKingPosition? (g : Chesspirito) (color : Color) : Option Position :=
  if color = Color.w then g.whiteKingPosition else g.blackKingPosition

/-- `inCheck`; `getKingPosition` throws "King not found" when the cache is
empty, surfaced here as `Except.error`. -/
def Chesspirito.inCheck? (g : Chesspirito) (color : Color) : Except String Bool :=
  match g.getKingPosition? color with
  | none => Except.error "King not found"
  | some kingPos => Except.ok (g.isSquareAttacked (getOppositeColor color) kingPos)

def Chesspirito.handleNextTurn (g : Chesspirito) (mate draw : Bool)
    (nextLegalMoves : List Move) : Chesspirito :=
  let g := if mate || draw then { g with currLegalMoves := [] } else g
  if mate then
    { g with gameOver := some (if g.playingColor = Color.w then "1-0" else "0-1") }
  else if draw then
    { g with gameOver := some "0-0" }
  else
    { g.togglePlayingColor with currLegalMoves := nextLegalMoves }

/-- `generateLanFromMove` (long-algebraic notation string for a history entry). -/
def generateLanFromMove (piece : ChessPiece) (fromS toS : String) (capture : Bool)
    (promotion : Option Promotion) (enPassant chk mate : Bool) : String :=
  let lan := fromS
  let lan := if isPawnType piece.type then lan else piece.type.str ++ lan
  let lan := if capture then lan ++ "x" else lan
  let lan := lan ++ toS
  let lan :=
    match promotion with
    | some p => lan ++ "=" ++ p.str
    | none => lan
  let lan := if mate then lan ++ "#" else if chk then lan ++ "+" else lan
  if enPassant then lan ++ " e.p." else lan

/-- `PromotionChessPieceFactory.create` followed by `ChessPieceFactory.create`:
a brand-new piece (empty history) of the requested kind in the playing color. -/
def promotionCreate (playingColor : Color) (promotion : Promotion) (pos : Position) :
    ChessPiece :=
  let t : Piece :=
    match promotion with
    | .N => if playingColor = Color.w then .WHITE_KNIGHT else .BLACK_KNIGHT
    | .B => if playingColor = Color.w then .WHITE_BISHOP else .BLACK_BISHOP
    | .R => if playingColor = Color.w then .WHITE_ROOK else .BLACK_ROOK
    | .Q => if playingColor = Color.w then .WHITE_QUEEN else .BLACK_QUEEN
  { type := t, color := pieceTypeColor t, position := pos, history := [] }

/-- The castling rook's source square (color- and side-dependent, from the
`isQueenside`/`isWhite` block of `handleCastling`). -/
def castlingRookFrom (g : Chesspirito) (fromPos toPos : Position) : Position :=
  if fromPos.x > toPos.x then
    (if g.playingColor = Color.w then ⟨0, 7⟩ else ⟨0, 0⟩)
  else
    (if g.playingColor = Color.w then ⟨7, 7⟩ else ⟨7, 0⟩)

/-- The castling rook's destination square. -/
def castlingRookTo (g : Chesspirito) (fromPos toPos : Position) : Position :=
  if fromPos.x > toPos.x then
    (if g.playingColor = Color.w then ⟨3, 7⟩ else ⟨3, 0⟩)
  else
    (if g.playingColor = Color.w then ⟨5, 7⟩ else ⟨5, 0⟩)

/-- `emptySquaresRequired`: the squares between king and rook. -/
def castlingEmptyRequired (g : Chesspirito) (fromPos toPos : Position) :
    List Position :=
  if fromPos.x > toPos.x then
    (if g.playingColor = Color.w then [⟨3, 7⟩, ⟨2, 7⟩, ⟨1, 7⟩]
     else [⟨3, 0⟩, ⟨2, 0⟩, ⟨1, 0⟩])
  else
    (if g.playingColor = Color.w then [⟨5, 7⟩, ⟨6, 7⟩] else [⟨5, 0⟩, ⟨6, 0⟩])

/-- `handleCastling`.  All precondition checks precede every board mutation,
exactly as in the source, so a raised error leaves the state untouched.  The
source computes `rookFrom`/`rookTo`/`emptySquaresRequired` in one
`isQueenside`/`isWhite` block; here they are the three helper definitions
above with identical values. -/
def Chesspirito.handleCastling (g : Chesspirito) (king : ChessPiece)
    (fromPos toPos : Position) : Except String Chesspirito :=
  if king.history.length > 0 then
    Except.error "Invalid castling = not first King move"
  else
    match g.getSquare (castlingRookFrom g fromPos toPos) with
    | none => Except.error "Invalid castling = not first Rook move"
    | some rook =>
      if rook.history.length > 0 then
        Except.error "Invalid castling = not first Rook move"
      else if !((castlingEmptyRequired g fromPos toPos).all fun pos =>
          g.isSquareEmpty pos) then
        Except.error "Invalid castling = blocked by piece"
      else
        match g.inCheck? g.playingColor with
        | Except.error e => Except.error e
        | Except.ok chk0 =>
          if chk0 then Except.error "Invalid castling = King in check"
          else if ((castlingEmptyRequired g fromPos toPos).take 2).any fun target =>
              g.isSquareAttacked (getOppositeColor g.playingColor) target then
            Except.error "Invalid castling = blocked by attack"
          else
            let g1 := (((g.setSquare toPos (some king)).setSquare fromPos
              none).setSquare (castlingRookTo g fromPos toPos)
              (some rook)).setSquare (castlingRookFrom g fromPos toPos) none
            let res := g1.generateLegalMoves (getOppositeColor g.playingColor)
            let opponentLegalMoves := res.1
            let g2 := res.2
            match g2.inCheck? (getOppositeColor g.playingColor) with
            | Except.error e => Except.error e
            | Except.ok chk =>
              let g3 := { g2 with
                check := if chk then some (getOppositeColor g.playingColor) else none }
              let mate := opponentLegalMoves.isEmpty && chk
              let draw := opponentLegalMoves.isEmpty && !chk
              -- king.history.push(from) / rook.history.push(rookFrom) mutate
              -- the objects sitting at toPos / rookTo after the restoring
              -- legality probe; re-store the updated values there.
              let king := { king with
                position := toPos,
                history := king.history ++ [fromPos] }
              let rook := { rook with
                position := castlingRookTo g fromPos toPos,
                history := rook.history ++ [castlingRookFrom g fromPos toPos] }
              let g4 := g3.setSquare toPos (some king)
              let g5 := g4.setSquare (castlingRookTo g fromPos toPos) (some rook)
              let san0 := if fromPos.x > toPos.x then "O-O-O" else "O-O"
              let san := if mate then san0 ++ "#"
                         else if chk then san0 ++ "+" else san0
              let entry : HistoryMove :=
                { from' := fromPos, to' := toPos, capture := none,
                  promotion := none, castling := some rook, lan := san }
              let g6 := { g5 with history := g5.history ++ [entry] }
              Except.ok (g6.handleNextTurn mate draw opponentLegalMoves)

/-- `move(from, to, promotion)` with coordinate arguments.  The source's string
overload converts through `getPositionFromMove` and is not needed here; the
formatted coordinate strings are still produced for error messages and LAN. -/
def Chesspirito.move (g : Chesspirito) (fromPos toPos : Position)
    (promotion : Promotion) : Except String Chesspirito :=
  if g.gameOver.isSome then Except.error "Invalid move = GameOver"
  else
    -- the source binds `fromMove`/`toMove`/`targetPiece` as consts; they are
    -- pure reads, written inline here
    if isPositionOutOfBounds fromPos || isPositionOutOfBounds toPos then
      Except.error "Invalid move = out of bounds"
    else
      match g.getSquare fromPos with
      | none => Except.error "Invalid move = no piece"
      | some piece =>
        if piece.color ≠ g.playingColor then
          Except.error "Invalid move = not playing color"
        else if (match g.getSquare toPos with
                 | some t => decide (t.color = g.playingColor)
                 | none => false) then
          Except.error "Invalid move = cannot move to friendly piece"
        else if (match g.getSquare toPos with
                 | some t => isKingType t.type
                 | none => false) then
          Except.error "Invalid move = King cannot be captured"
        else if isKingType piece.type && decide (fromPos.y = toPos.y) &&
            decide ((toPos.x - fromPos.x).natAbs = 2) then
          g.handleCastling piece fromPos toPos
        else
          let attacking := (g.getSquare toPos).isSome
          -- `currLegalMoves.some(...)`: first position match wins and supplies
          -- the `enPassant` flag.
          match g.currLegalMoves.find? fun m =>
              isSamePosition m.from' fromPos && isSamePosition m.to' toPos with
          | none => Except.error ("Invalid move = " ++ getMoveFromPosition fromPos
              ++ "-" ++ getMoveFromPosition toPos)
          | some matched =>
            let enPassant := matched.enPassant
            let capture := g.getSquare toPos
            let g := g.setSquare toPos (some piece)
            let g := g.setSquare fromPos none
            let capg : Square × Chesspirito :=
              match g.enPassantable with
              | some ep =>
                if enPassant then (g.getSquare ep, g.setSquare ep none)
                else (capture, g)
              | none => (capture, g)
            let capture := capg.1
            let g := capg.2
            let isPawn := isPawnType piece.type
            let g :=
              if isPawn then
                (if !attacking && decide ((toPos.y - fromPos.y).natAbs = 2) then
                   { g with enPassantable := some toPos }
                 else
                   { g with enPassantable := none })
              else g
            let lastRank : Int := if g.playingColor = Color.w then 0 else 7
            let hasPromoted := isPawn && decide (toPos.y = lastRank)
            let g :=
              if hasPromoted then
                g.setSquare toPos (some (promotionCreate g.playingColor promotion toPos))
              else g
            let opponentColor := getOppositeColor g.playingColor
            let res := g.generateLegalMoves opponentColor
            let opponentLegalMoves := res.1
            let g := res.2
            match g.inCheck? opponentColor with
            | Except.error e => Except.error e
            | Except.ok chk =>
              let g := { g with check := if chk then some opponentColor else none }
              let mate := opponentLegalMoves.isEmpty && chk
              let draw := opponentLegalMoves.isEmpty && !chk
              -- piece.history.push(fromPos) mutates the moved piece in place;
              -- unless a promotion replaced it, that object sits at toPos after
              -- the restoring legality probe, so re-store the updated value.
              let piece := { piece with
                position := toPos,
                history := piece.history ++ [fromPos] }
              let g := if hasPromoted then g else g.setSquare toPos (some piece)
              let entry : HistoryMove :=
                { from' := fromPos, to' := toPos, capture := capture,
                  promotion := if hasPromoted then some piece else none,
                  castling := none,
                  lan := generateLanFromMove piece (getMoveFromPosition fromPos)
                    (getMoveFromPosition toPos) capture.isSome
                    (if hasPromoted then some promotion else none) enPassant chk mate }
              let g := { g with history := g.history ++ [entry] }
              Except.ok (g.handleNextTurn mate draw opponentLegalMoves)

/-- `move` with the default promotion parameter (`promotion: Promotion = "Q"`). -/
def Chesspirito.moveDefault (g : Chesspirito) (fromPos toPos : Position) :
    Except String Chesspirito :=
  g.move fromPos toPos Promotion.Q

/-- `undo()`. -/
def Chesspirito.undo (g : Chesspirito) : Except String Chesspirito :=
  match g.history.getLast? with
  | none => Except.error "Invalid undo = clean history"
  | some lastMove =>
    let g := { g with history := g.history.dropLast }
    match g.getSquare lastMove.to' with
    | none => Except.error "Invalid undo = unexpected nullish piece"
    | some movedPiece0 =>
      let movedPiece := { movedPiece0 with history := movedPiece0.history.dropLast }
      let g :=
        match lastMove.promotion with
        | some promo =>
          -- setSquare(from, promotion) then promotion.history.pop() on the
          -- object now in that slot.
          g.setSquare lastMove.from' (some { promo with history := promo.history.dropLast })
        | none => g.setSquare lastMove.from' (some movedPiece)
      let g :=
        match lastMove.capture with
        | some cap =>
          if isSamePosition lastMove.to' cap.position then
            g.setSquare lastMove.to' (some cap)
          else
            let g := g.setSquare cap.position (some cap)
            let g := g.setSquare lastMove.to' none
            { g with enPassantable := some cap.position }
        | none => g.setSquare lastMove.to' none
      match (match lastMove.castling with
             | some rook =>
               match rook.history.getLast? with
               | none => Except.error "Invalid undo = unexpected castling error"
               | some rookFrom =>
                 let g := g.setSquare rook.position none
                 Except.ok (g.setSquare rookFrom
                   (some { rook with history := rook.history.dropLast }))
             | none => Except.ok g) with
      | Except.error e => Except.error e
      | Except.ok g =>
        let g := if g.gameOver.isSome then g else g.togglePlayingColor
        match g.inCheck? g.playingColor with
        | Except.error e => Except.error e
        | Except.ok chk =>
          let g := { g with check := if chk then some g.playingColor else none }
          let g := { g with gameOver := none }
          let res := g.generateLegalMoves g.playingColor
          Except.ok { res.2 with currLegalMoves := res.1 }

/-- One iteration block of the FEN placement inner loop over `x`.  Note the
source's quirk: a digit `d` at index `x` advances `x` by `d` and the loop
increment adds one more, so interior digits also skip characters.  Fuel 8 is
exact (`x` grows by at least one per iteration and the loop stops at 8). -/
def placeRank (y : Nat) (chars : List Char) : Nat → Nat → Chesspirito →
    Except String Chesspirito
  | _, 0, g => Except.ok g
  | x, fuel + 1, g =>
    if x ≥ 8 then Except.ok g
    else
      let c := chars.getD x ' '
      match charToPiece c with
      | some pt =>
        let pos : Position := ⟨(x : Int), (y : Int)⟩
        let piece : ChessPiece :=
          { type := pt, color := pieceTypeColor pt, position := pos, history := [] }
        placeRank y chars (x + 1) fuel (g.setSquare pos (some piece))
      | none =>
        -- Number(char) with the 1..8 validity test; anything else throws.
        if c.isDigit && decide (1 ≤ c.toNat - 48) && decide (c.toNat - 48 ≤ 8) then
          placeRank y chars (x + (c.toNat - 48) + 1) fuel g
        else Except.error "Invalid empty squares"

def placeRanks (fenPieces : List (List Char)) : Nat → Nat → Chesspirito →
    Except String Chesspirito
  | _, 0, g => Except.ok g
  | y, fuel + 1, g =>
    match placeRank y (fenPieces.getD y []) 0 8 g with
    | Except.error e => Except.error e
    | Except.ok g => placeRanks fenPieces (y + 1) fuel g

/-- `String.split` on a single separator character (structurally recursive so
that the kernel can evaluate it). -/
def splitChars (sep : Char) : List Char → List Char → List (List Char)
  | [], acc => [acc.reverse]
  | c :: cs, acc =>
    if c = sep then acc.reverse :: splitChars sep cs []
    else splitChars sep cs (c :: acc)

/-- The `Chesspirito` constructor.  The side-to-move field is cast from the
raw string in the source; positions used in the claims always carry a valid
"w"/"b" field, modelled as: anything other than "w" plays as black. -/
def Chesspirito.construct (fen : String) : Except String Chesspirito :=
  let fenParts := splitChars ' ' fen.toList []
  let fenPieces := splitChars '/' (fenParts.getD 0 []) []
  let fenColor := fenParts.getD 1 []
  let g0 : Chesspirito :=
    { board := List.replicate 8 (List.replicate 8 none),
      history := [], gameOver := none,
      whiteKingPosition := none, blackKingPosition := none,
      playingColor := if fenColor = ['w'] then Color.w else Color.b,
      check := none, currLegalMoves := [], enPassantable := none }
  match placeRanks fenPieces 0 8 g0 with
  | Except.error e => Except.error e
  | Except.ok g =>
    let res := g.generateLegalMoves g.playingColor
    let legalMoves := res.1
    let g := res.2
    match g.inCheck? g.playingColor with
    | Except.error e => Except.error e
    | Except.ok chk =>
      let g := { g with check := if chk then some g.playingColor else none }
      let g :=
        if legalMoves.isEmpty then
          let outcome : String :=
            if chk then (if g.playingColor = Color.w then "1-0" else "0-1") else "0-0"
          { g with gameOver := some outcome }
        else g
      Except.ok { g with currLegalMoves := legalMoves }

def Chesspirito.getLegalMoves (g : Chesspirito) (fromPos : Position) : List Move :=
  g.currLegalMoves.filter fun m => isSamePosition m.from' fromPos

/-! ### Verification layer: board algebra -/

/-- Extract the state from a successful engine call (used to name concrete
states in the theorems below). -/
def getOk (r : Except String Chesspirito) : Chesspirito :=
  match r with
  | Except.ok g => g
  | Except.error _ => default

/-- Both coordinates lie inside the 8×8 grid. -/
def inB (pos : Position) : Prop :=
  isPositionOutOfBounds pos = false

/-- Nat-indexed board read (agrees with `readBoard` after `Int.toNat`). -/
def readN (b : List (List Square)) (x y : Nat) : Square :=
  (b.getD y []).getD x none

/-- Nat-indexed board write. -/
def writeN (b : List (List Square)) (x y : Nat) (s : Square) : List (List Square) :=
  b.set y ((b.getD y []).set x s)

/-- The board is a full 8×8 matrix. -/
def dims8 (b : List (List Square)) : Prop :=
  b.length = 8 ∧ ∀ r ∈ b, r.length = 8

theorem readBoard_eq (b : List (List Square)) (p : Position) :
    readBoard b p = readN b p.x.toNat p.y.toNat := rfl

theorem writeBoard_eq (b : List (List Square)) (p : Position) (s : Square) :
    writeBoard b p s = writeN b p.x.toNat p.y.toNat s := rfl

theorem getD_lt {α : Type} (l : List α) (i : Nat) (d : α) (hi : i < l.length) :
    l.getD i d = l[i] := by
  rw [List.getD_eq_getElem?_getD, List.getElem?_eq_getElem hi]
  rfl

theorem list_set_self {α : Type} (l : List α) (i : Nat) (hi : i < l.length) :
    l.set i l[i] = l := by
  induction l generalizing i with
  | nil => simp at hi
  | cons a l ih =>
    cases i with
    | zero => simp
    | succ n =>
      simp only [List.set_cons_succ, List.getElem_cons_succ, List.cons.injEq, true_and]
      exact ih n (by simpa using hi)

theorem getD_set_self {α : Type} (l : List α) (i : Nat) (a d : α) (hi : i < l.length) :
    (l.set i a).getD i d = a := by
  rw [List.getD_eq_getElem?_getD, List.getElem?_set_self hi]
  rfl

theorem getD_set_ne {α : Type} (l : List α) (i j : Nat) (a d : α) (hne : i ≠ j) :
    (l.set i a).getD j d = l.getD j d := by
  rw [List.getD_eq_getElem?_getD, List.getElem?_set_ne hne, ← List.getD_eq_getElem?_getD]

theorem set_getD_self {α : Type} (l : List α) (i : Nat) (d s : α) (h : l.getD i d = s) :
    l.set i s = l := by
  by_cases hi : i < l.length
  · rw [← h, getD_lt _ _ _ hi]
    exact list_set_self l i hi
  · exact List.set_eq_of_length_le (by omega)

theorem readN_writeN_self (b : List (List Square)) (x y : Nat) (s : Square)
    (hd : dims8 b) (hx : x < 8) (hy : y < 8) :
    readN (writeN b x y s) x y = s := by
  have hyl : y < b.length := by
    have := hd.1
    omega
  have hxl : x < (b.getD y []).length := by
    rw [getD_lt _ _ _ hyl]
    have := hd.2 (b[y]) (by simp)
    omega
  unfold readN writeN
  rw [getD_set_self _ _ _ _ (by simpa using hyl)]
  exact getD_set_self _ _ _ _ hxl

theorem readN_writeN_ne (b : List (List Square)) (x y x' y' : Nat) (s : Square)
    (hne : x ≠ x' ∨ y ≠ y') :
    readN (writeN b x y s) x' y' = readN b x' y' := by
  unfold readN writeN
  rcases hne with hne | hne
  · by_cases hy : y = y'
    · subst hy
      by_cases hyl : y < b.length
      · rw [getD_set_self _ _ _ _ (by simpa using hyl)]
        exact getD_set_ne _ _ _ _ _ hne
      · rw [List.set_eq_of_length_le (by omega)]
    · rw [getD_set_ne _ _ _ _ _ hy]
  · rw [getD_set_ne _ _ _ _ _ hne]

theorem writeN_writeN_self (b : List (List Square)) (x y : Nat) (s t : Square) :
    writeN (writeN b x y s) x y t = writeN b x y t := by
  unfold writeN
  by_cases hyl : y < b.length
  · rw [getD_set_self _ _ _ _ (by simpa using hyl), List.set_set, List.set_set]
  · have h1 : ∀ r : List Square, b.set y r = b := fun r =>
      List.set_eq_of_length_le (by omega)
    simp only [h1]

theorem writeN_comm (b : List (List Square)) (x y x' y' : Nat) (s t : Square)
    (hne : x ≠ x' ∨ y ≠ y') :
    writeN (writeN b x y s) x' y' t = writeN (writeN b x' y' t) x y s := by
  unfold writeN
  by_cases hy : y = y'
  · subst hy
    have hx : x ≠ x' := by tauto
    by_cases hyl : y < b.length
    · rw [getD_set_self _ _ _ _ (by simpa using hyl),
        getD_set_self _ _ _ _ (by simpa using hyl),
        List.set_set, List.set_set, List.set_comm _ _ _ hx]
    · have h1 : ∀ r : List Square, b.set y r = b := fun r =>
        List.set_eq_of_length_le (by omega)
      simp only [h1]
  · rw [getD_set_ne _ _ _ _ _ hy, getD_set_ne _ _ _ _ _ (fun h => hy h.symm),
      List.set_comm _ _ _ hy]

theorem writeN_self (b : List (List Square)) (x y : Nat) (s : Square)
    (h : readN b x y = s) :
    writeN b x y s = b := by
  unfold readN at h
  unfold writeN
  rw [set_getD_self _ _ _ _ h]
  exact set_getD_self _ _ _ _ rfl

theorem dims8_writeN (b : List (List Square)) (x y : Nat) (s : Square)
    (hd : dims8 b) (hy : y < 8) :
    dims8 (writeN b x y s) := by
  constructor
  · rw [writeN, List.length_set]
    exact hd.1
  · intro r hr
    rcases List.mem_or_eq_of_mem_set hr with hr | hr
    · exact hd.2 r hr
    · subst hr
      rw [List.length_set, getD_lt _ _ _ (by have := hd.1; omega)]
      exact hd.2 _ (by simp)

/-- The value `setSquare` actually stores (position field updated in place). -/
def storedVal (pos : Position) : Square → Square
  | none => none
  | some pc => some { pc with position := pos }

theorem setSquare_board (g : Chesspirito) (p : Position) (s : Square) :
    (g.setSquare p s).board = writeBoard g.board p (storedVal p s) := by
  cases s with
  | none => rfl
  | some pc =>
    simp only [Chesspirito.setSquare, storedVal]
    split
    · split <;> rfl
    · rfl

theorem setSquare_history (g : Chesspirito) (p : Position) (s : Square) :
    (g.setSquare p s).history = g.history := by
  cases s with
  | none => rfl
  | some pc =>
    simp only [Chesspirito.setSquare]
    split
    · split <;> rfl
    · rfl

theorem setSquare_gameOver (g : Chesspirito) (p : Position) (s : Square) :
    (g.setSquare p s).gameOver = g.gameOver := by
  cases s with
  | none => rfl
  | some pc =>
    simp only [Chesspirito.setSquare]
    split
    · split <;> rfl
    · rfl

theorem setSquare_playingColor (g : Chesspirito) (p : Position) (s : Square) :
    (g.setSquare p s).playingColor = g.playingColor := by
  cases s with
  | none => rfl
  | some pc =>
    simp only [Chesspirito.setSquare]
    split
    · split <;> rfl
    · rfl

theorem setSquare_check (g : Chesspirito) (p : Position) (s : Square) :
    (g.setSquare p s).check = g.check := by
  cases s with
  | none => rfl
  | some pc =>
    simp only [Chesspirito.setSquare]
    split
    · split <;> rfl
    · rfl

theorem setSquare_currLegalMoves (g : Chesspirito) (p : Position) (s : Square) :
    (g.setSquare p s).currLegalMoves = g.currLegalMoves := by
  cases s with
  | none => rfl
  | some pc =>
    simp only [Chesspirito.setSquare]
    split
    · split <;> rfl
    · rfl

theorem setSquare_enPassantable (g : Chesspirito) (p : Position) (s : Square) :
    (g.setSquare p s).enPassantable = g.enPassantable := by
  cases s with
  | none => rfl
  | some pc =>
    simp only [Chesspirito.setSquare]
    split
    · split <;> rfl
    · rfl

theorem setSquare_wkp (g : Chesspirito) (p : Position) (s : Square) :
    (g.setSquare p s).whiteKingPosition =
      (match s with
       | some pc =>
         if isKingType pc.type && decide (pc.color = Color.w) then some p
         else g.whiteKingPosition
       | none => g.whiteKingPosition) := by
  cases s with
  | none => rfl
  | some pc =>
    simp only [Chesspirito.setSquare]
    by_cases hk : isKingType pc.type = true
    · by_cases hc : pc.color = Color.w
      · simp [hk, hc]
      · simp [hk, hc]
    · simp [hk]

theorem setSquare_bkp (g : Chesspirito) (p : Position) (s : Square) :
    (g.setSquare p s).blackKingPosition =
      (match s with
       | some pc =>
         if isKingType pc.type && !decide (pc.color = Color.w) then some p
         else g.blackKingPosition
       | none => g.blackKingPosition) := by
  cases s with
  | none => rfl
  | some pc =>
    simp only [Chesspirito.setSquare]
    by_cases hk : isKingType pc.type = true
    · by_cases hc : pc.color = Color.w
      · simp [hk, hc]
      · simp [hk, hc]
    · simp [hk]

theorem inB_toNat (p : Position) (h : inB p) :
    p.x.toNat < 8 ∧ p.y.toNat < 8 ∧ ((p.x.toNat : Int) = p.x) ∧
      ((p.y.toNat : Int) = p.y) := by
  unfold inB isPositionOutOfBounds isOutOfBounds at h
  simp only [Bool.or_eq_false_iff, decide_eq_false_iff_not, not_lt] at h
  omega

theorem slot_ne (p q : Position) (hp : inB p) (hq : inB q) (hne : p ≠ q) :
    p.x.toNat ≠ q.x.toNat ∨ p.y.toNat ≠ q.y.toNat := by
  obtain ⟨_, _, hpx, hpy⟩ := inB_toNat p hp
  obtain ⟨_, _, hqx, hqy⟩ := inB_toNat q hq
  by_contra hcon
  push_neg at hcon
  apply hne
  have hx : p.x = q.x := by omega
  have hy : p.y = q.y := by omega
  cases p
  cases q
  simp_all

theorem getSquare_setSquare_self (g : Chesspirito) (p : Position) (s : Square)
    (hd : dims8 g.board) (hp : inB p) :
    (g.setSquare p s).getSquare p = storedVal p s := by
  obtain ⟨hx, hy, _, _⟩ := inB_toNat p hp
  rw [Chesspirito.getSquare, setSquare_board, readBoard_eq, writeBoard_eq]
  exact readN_writeN_self _ _ _ _ hd hx hy

theorem getSquare_setSquare_ne (g : Chesspirito) (p q : Position) (s : Square)
    (hp : inB p) (hq : inB q) (hne : p ≠ q) :
    (g.setSquare p s).getSquare q = g.getSquare q := by
  rw [Chesspirito.getSquare, setSquare_board, readBoard_eq, writeBoard_eq]
  exact readN_writeN_ne _ _ _ _ _ _ (slot_ne p q hp hq hne)

theorem dims8_setSquare (g : Chesspirito) (p : Position) (s : Square)
    (hd : dims8 g.board) (hp : inB p) :
    dims8 (g.setSquare p s).board := by
  obtain ⟨_, hy, _, _⟩ := inB_toNat p hp
  rw [setSquare_board, writeBoard_eq]
  exact dims8_writeN _ _ _ _ hd hy

theorem ext9 (g1 g2 : Chesspirito)
    (h1 : g1.board = g2.board) (h2 : g1.history = g2.history)
    (h3 : g1.gameOver = g2.gameOver)
    (h4 : g1.whiteKingPosition = g2.whiteKingPosition)
    (h5 : g1.blackKingPosition = g2.blackKingPosition)
    (h6 : g1.playingColor = g2.playingColor) (h7 : g1.check = g2.check)
    (h8 : g1.currLegalMoves = g2.currLegalMoves)
    (h9 : g1.enPassantable = g2.enPassantable) : g1 = g2 := by
  cases g1
  cases g2
  simp_all

theorem inB_ofNat (x y : Nat) (hx : x < 8) (hy : y < 8) :
    inB ⟨(x : Int), (y : Int)⟩ := by
  simp only [inB, isPositionOutOfBounds, isOutOfBounds]
  simp only [Bool.or_eq_false_iff, decide_eq_false_iff_not, not_lt]
  omega

/-- Per-square representation invariant: the piece's `position` field matches
its slot, and a king's slot matches the corresponding cached king position. -/
def pieceOkB (g : Chesspirito) (x y : Nat) : Bool :=
  match readN g.board x y with
  | none => true
  | some p =>
    decide (p.position = ⟨(x : Int), (y : Int)⟩) &&
      (match p.type with
       | Piece.WHITE_KING =>
         decide (g.whiteKingPosition = some ⟨(x : Int), (y : Int)⟩) &&
           decide (p.color = Color.w)
       | Piece.BLACK_KING =>
         decide (g.blackKingPosition = some ⟨(x : Int), (y : Int)⟩) &&
           decide (p.color = Color.b)
       | _ => true)

/-- Decidable representation invariant of an engine state. -/
def InvB (g : Chesspirito) : Bool :=
  decide (g.board.length = 8) && g.board.all (fun r => decide (r.length = 8)) &&
    (List.range 8).all fun y => (List.range 8).all fun x => pieceOkB g x y

/-- Propositional form of `InvB`. -/
def InvP (g : Chesspirito) : Prop :=
  dims8 g.board ∧ ∀ x y : Nat, x < 8 → y < 8 → pieceOkB g x y = true

theorem InvB_iff (g : Chesspirito) : InvB g = true ↔ InvP g := by
  unfold InvB InvP dims8
  simp only [Bool.and_eq_true, List.all_eq_true, decide_eq_true_eq, List.mem_range]
  constructor
  · rintro ⟨⟨hl, hr⟩, hpc⟩
    exact ⟨⟨hl, hr⟩, fun x y hx hy => hpc y hy x hx⟩
  · rintro ⟨⟨hl, hr⟩, hpc⟩
    exact ⟨⟨hl, hr⟩, fun y hy x hx => hpc x y hx hy⟩

theorem pieceOkB_iff (g : Chesspirito) (x y : Nat) :
    pieceOkB g x y = true ↔
      ∀ pc, g.getSquare ⟨(x : Int), (y : Int)⟩ = some pc →
        pc.position = ⟨(x : Int), (y : Int)⟩ ∧
        (pc.type = Piece.WHITE_KING →
          g.whiteKingPosition = some ⟨(x : Int), (y : Int)⟩ ∧ pc.color = Color.w) ∧
        (pc.type = Piece.BLACK_KING →
          g.blackKingPosition = some ⟨(x : Int), (y : Int)⟩ ∧ pc.color = Color.b) := by
  have hread : g.getSquare ⟨(x : Int), (y : Int)⟩ = readN g.board x y := by
    rw [Chesspirito.getSquare, readBoard_eq]
    simp
  unfold pieceOkB
  rw [hread]
  cases hr : readN g.board x y with
  | none => simp
  | some pc =>
    simp only [Bool.and_eq_true, decide_eq_true_eq, Option.some.injEq]
    constructor
    · rintro ⟨hpos, hk⟩ pc' hpc'
      subst hpc'
      refine ⟨hpos, ?_, ?_⟩
      · intro ht
        rw [ht] at hk
        simpa using hk
      · intro ht
        rw [ht] at hk
        simpa using hk
    · intro h
      obtain ⟨hpos, hwk, hbk⟩ := h pc rfl
      refine ⟨hpos, ?_⟩
      cases ht : pc.type <;> simp_all

/-- Invariant facts about an occupied in-bounds square. -/
theorem InvP_at (g : Chesspirito) (hInv : InvP g) (p : Position) (pc : ChessPiece)
    (hp : inB p) (hs : g.getSquare p = some pc) :
    pc.position = p ∧
    (pc.type = Piece.WHITE_KING → g.whiteKingPosition = some p ∧ pc.color = Color.w) ∧
    (pc.type = Piece.BLACK_KING → g.blackKingPosition = some p ∧ pc.color = Color.b) := by
  obtain ⟨hx, hy, hcx, hcy⟩ := inB_toNat p hp
  have hp' : p = ⟨(p.x.toNat : Int), (p.y.toNat : Int)⟩ := by
    cases p
    simp_all
  have := (pieceOkB_iff g p.x.toNat p.y.toNat).mp (hInv.2 _ _ hx hy) pc (by rw [← hp']; exact hs)
  rw [← hp'] at this
  exact this

theorem isKingType_iff (t : Piece) :
    isKingType t = true ↔ t = Piece.WHITE_KING ∨ t = Piece.BLACK_KING := by
  simp [isKingType]

theorem probe_restore (g : Chesspirito) (mf mt : Position) (sq : ChessPiece)
    (hInv : InvP g) (hf : inB mf) (ht : inB mt)
    (hsq : g.getSquare mf = some sq) :
    (((g.setSquare mt (some sq)).setSquare mf none).setSquare mt
        (g.getSquare mt)).setSquare mf (some sq) = g := by
  obtain ⟨hposf, hwkf, hbkf⟩ := InvP_at g hInv mf sq hf hsq
  have heta : ({ sq with position := mf } : ChessPiece) = sq := by
    rw [← hposf]
  have hreadf : readN g.board mf.x.toNat mf.y.toNat = some sq := hsq
  have hs3 : storedVal mt (g.getSquare mt) = readN g.board mt.x.toNat mt.y.toNat := by
    cases hmt : g.getSquare mt with
    | none =>
      rw [show readN g.board mt.x.toNat mt.y.toNat = g.getSquare mt from rfl, hmt]
      rfl
    | some tgt =>
      obtain ⟨hpost, _, _⟩ := InvP_at g hInv mt tgt ht hmt
      have heta2 : ({ tgt with position := mt } : ChessPiece) = tgt := by
        rw [← hpost]
      rw [show readN g.board mt.x.toNat mt.y.toNat = g.getSquare mt from rfl, hmt]
      simp [storedVal, heta2]
  apply ext9
  · -- board
    rw [setSquare_board, setSquare_board, setSquare_board, setSquare_board,
      writeBoard_eq, writeBoard_eq, writeBoard_eq, writeBoard_eq, hs3]
    have hsv4 : storedVal mf (some sq) = some sq := by
      simp [storedVal, heta]
    rw [show storedVal mt (some sq) = some { sq with position := mt } from rfl,
      show storedVal mf (none : Square) = none from rfl, hsv4]
    by_cases hpq : mf = mt
    · subst hpq
      rw [writeN_writeN_self, writeN_writeN_self, writeN_writeN_self]
      exact writeN_self _ _ _ _ hreadf
    · have hd := slot_ne mf mt hf ht hpq
      rw [writeN_comm (writeN g.board mt.x.toNat mt.y.toNat
            (some { sq with position := mt })) mf.x.toNat mf.y.toNat
            mt.x.toNat mt.y.toNat none
            (readN g.board mt.x.toNat mt.y.toNat) hd,
        writeN_writeN_self g.board mt.x.toNat mt.y.toNat
          (some { sq with position := mt }) (readN g.board mt.x.toNat mt.y.toNat),
        writeN_self g.board mt.x.toNat mt.y.toNat _ rfl,
        writeN_writeN_self g.board mf.x.toNat mf.y.toNat none (some sq)]
      exact writeN_self _ _ _ _ hreadf
  · rw [setSquare_history, setSquare_history, setSquare_history, setSquare_history]
  · rw [setSquare_gameOver, setSquare_gameOver, setSquare_gameOver, setSquare_gameOver]
  · -- white king cache
    rw [setSquare_wkp, setSquare_wkp, setSquare_wkp, setSquare_wkp]
    by_cases c1 : (isKingType sq.type && decide (sq.color = Color.w)) = true
    · simp only [c1, if_true]
      rw [Bool.and_eq_true, decide_eq_true_eq] at c1
      rcases (isKingType_iff _).mp c1.1 with hty | hty
      · exact ((hwkf hty).1).symm
      · exact absurd c1.2 (by simp [(hbkf hty).2])
    · rw [Bool.not_eq_true] at c1
      simp only [c1, Bool.false_eq_true, if_false]
      cases hmt : g.getSquare mt with
      | none => rfl
      | some tgt =>
        obtain ⟨hpost, hwkt, hbkt⟩ := InvP_at g hInv mt tgt ht hmt
        by_cases c2 : (isKingType tgt.type && decide (tgt.color = Color.w)) = true
        · simp only [c2, if_true]
          rw [Bool.and_eq_true, decide_eq_true_eq] at c2
          rcases (isKingType_iff _).mp c2.1 with hty | hty
          · exact ((hwkt hty).1).symm
          · exact absurd c2.2 (by simp [(hbkt hty).2])
        · rw [Bool.not_eq_true] at c2
          simp only [c2, Bool.false_eq_true, if_false]
  · -- black king cache
    rw [setSquare_bkp, setSquare_bkp, setSquare_bkp, setSquare_bkp]
    by_cases c1 : (isKingType sq.type && !decide (sq.color = Color.w)) = true
    · simp only [c1, if_true]
      rw [Bool.and_eq_true] at c1
      rcases (isKingType_iff _).mp c1.1 with hty | hty
      · have hcw := (hwkf hty).2
        rw [hcw] at c1
        simp at c1
      · exact ((hbkf hty).1).symm
    · rw [Bool.not_eq_true] at c1
      simp only [c1, Bool.false_eq_true, if_false]
      cases hmt : g.getSquare mt with
      | none => rfl
      | some tgt =>
        obtain ⟨hpost, hwkt, hbkt⟩ := InvP_at g hInv mt tgt ht hmt
        by_cases c2 : (isKingType tgt.type && !decide (tgt.color = Color.w)) = true
        · simp only [c2, if_true]
          rw [Bool.and_eq_true] at c2
          rcases (isKingType_iff _).mp c2.1 with hty | hty
          · have hcw := (hwkt hty).2
            rw [hcw] at c2
            simp at c2
          · exact ((hbkt hty).1).symm
        · rw [Bool.not_eq_true] at c2
          simp only [c2, Bool.false_eq_true, if_false]
  · rw [setSquare_playingColor, setSquare_playingColor, setSquare_playingColor,
      setSquare_playingColor]
  · rw [setSquare_check, setSquare_check, setSquare_check, setSquare_check]
  · rw [setSquare_currLegalMoves, setSquare_currLegalMoves, setSquare_currLegalMoves,
      setSquare_currLegalMoves]
  · rw [setSquare_enPassantable, setSquare_enPassantable, setSquare_enPassantable,
      setSquare_enPassantable]

theorem pawnFilterMove_some (g : Chesspirito) (self : ChessPiece) (m m' : Move)
    (h : pawnFilterMove g self m = some m') :
    m'.from' = m.from' ∧ m'.to' = m.to' ∧ isPositionOutOfBounds m.to' = false := by
  unfold pawnFilterMove at h
  split at h
  · exact absurd h (by simp)
  · next hoob =>
    have hoob' : isPositionOutOfBounds m.to' = false := by
      revert hoob
      cases isPositionOutOfBounds m.to' <;> simp
    simp only [] at h
    repeat' split at h
    all_goals
      first
      | (injection h with h; subst h; exact ⟨rfl, rfl, hoob'⟩)
      | exact absurd h (by simp)

theorem mem_ite_list {α : Type} {c : Prop} [Decidable c] {l1 l2 : List α} {a : α}
    (h : a ∈ if c then l1 else l2) : a ∈ l1 ∨ a ∈ l2 := by
  split at h
  · exact Or.inl h
  · exact Or.inr h

theorem pawnGenerateMoves_spec (g : Chesspirito) (self : ChessPiece) :
    ∀ m ∈ pawnGenerateMoves g self,
      m.from' = self.position ∧ isPositionOutOfBounds m.to' = false := by
  intro m hm
  unfold pawnGenerateMoves at hm
  rw [List.mem_filterMap] at hm
  obtain ⟨a, ha, hfa⟩ := hm
  obtain ⟨h1, h2, h3⟩ := pawnFilterMove_some g self a m hfa
  have hafrom : a.from' = self.position := by
    rcases mem_ite_list ha with ha' | ha'
    · simp only [List.mem_append, List.mem_cons, List.mem_singleton,
        List.not_mem_nil, or_false] at ha'
      rcases ha' with (h | h | h) | h <;> subst h <;> rfl
    · simp only [List.mem_cons, List.not_mem_nil, or_false] at ha'
      rcases ha' with h | h | h <;> subst h <;> rfl
  refine ⟨by rw [h1, hafrom], by rw [h2]; exact h3⟩

theorem knightGenerateMoves_spec (g : Chesspirito) (self : ChessPiece) :
    ∀ m ∈ knightGenerateMoves g self,
      m.from' = self.position ∧ isPositionOutOfBounds m.to' = false := by
  intro m hm
  unfold knightGenerateMoves at hm
  rw [List.mem_filter] at hm
  obtain ⟨hmem, hcond⟩ := hm
  simp only [Bool.and_eq_true] at hcond
  have hoob : isPositionOutOfBounds m.to' = false := by
    have := hcond.1
    revert this
    cases isPositionOutOfBounds m.to' <;> simp
  refine ⟨?_, hoob⟩
  simp only [List.mem_map, List.mem_cons, List.not_mem_nil, or_false] at hmem
  obtain ⟨p, hp, hmp⟩ := hmem
  rw [← hmp]
  rfl

theorem kingGenerateMoves_spec (g : Chesspirito) (self : ChessPiece) :
    ∀ m ∈ kingGenerateMoves g self,
      m.from' = self.position ∧ isPositionOutOfBounds m.to' = false := by
  intro m hm
  unfold kingGenerateMoves at hm
  rw [List.mem_filter] at hm
  obtain ⟨hmem, hcond⟩ := hm
  simp only [Bool.and_eq_true] at hcond
  have hoob : isPositionOutOfBounds m.to' = false := by
    have := hcond.1
    revert this
    cases isPositionOutOfBounds m.to' <;> simp
  refine ⟨?_, hoob⟩
  simp only [List.mem_map, List.mem_cons, List.not_mem_nil, or_false] at hmem
  obtain ⟨p, hp, hmp⟩ := hmem
  rw [← hmp]
  rfl

theorem slideRay_spec (g : Chesspirito) (piece : ChessPiece) (dy dx : Int) :
    ∀ (fuel : Nat) (pos : Position), ∀ m ∈ slideRay g piece dy dx pos fuel,
      m.from' = piece.position ∧ isPositionOutOfBounds m.to' = false := by
  intro fuel
  induction fuel with
  | zero => intro pos m hm; exact absurd hm (by simp [slideRay])
  | succ n ih =>
    intro pos m hm
    rw [slideRay] at hm
    split at hm
    · exact absurd hm (by simp)
    · next hoob =>
      have hoob' : isPositionOutOfBounds pos = false := by
        revert hoob
        cases isPositionOutOfBounds pos <;> simp
      simp only [] at hm
      split at hm
      · rw [List.mem_append] at hm
        rcases hm with hm | hm
        · rcases mem_ite_list hm with hm | hm
          · rw [List.mem_singleton] at hm
            subst hm
            exact ⟨rfl, hoob'⟩
          · exact absurd hm (by simp)
        · exact ih _ m hm
      · rcases mem_ite_list hm with hm | hm
        · rw [List.mem_singleton] at hm
          subst hm
          exact ⟨rfl, hoob'⟩
        · exact absurd hm (by simp)

theorem generateSlidingMoves_spec (g : Chesspirito) (piece : ChessPiece)
    (dirs : List (Int × Int)) :
    ∀ m ∈ generateSlidingMoves g piece dirs,
      m.from' = piece.position ∧ isPositionOutOfBounds m.to' = false := by
  intro m hm
  unfold generateSlidingMoves at hm
  rw [List.mem_flatMap] at hm
  obtain ⟨d, _, hm⟩ := hm
  exact slideRay_spec g piece d.1 d.2 8 _ m hm

theorem pieceMoves_spec (g : Chesspirito) (piece : ChessPiece) :
    ∀ m ∈ g.pieceMoves piece,
      m.from' = piece.position ∧ isPositionOutOfBounds m.to' = false := by
  intro m hm
  unfold Chesspirito.pieceMoves at hm
  cases htype : piece.type <;> rw [htype] at hm <;>
    first
    | exact pawnGenerateMoves_spec g piece m hm
    | exact knightGenerateMoves_spec g piece m hm
    | exact kingGenerateMoves_spec g piece m hm
    | exact generateSlidingMoves_spec g piece _ m hm

theorem generateMoves_spec (g : Chesspirito) (c : Color) (hInv : InvP g) :
    ∀ m ∈ g.generateMoves c,
      (g.getSquare m.from').isSome ∧ inB m.from' ∧ inB m.to' := by
  intro m hm
  unfold Chesspirito.generateMoves at hm
  rw [List.mem_flatMap] at hm
  obtain ⟨y, hy, hm⟩ := hm
  rw [List.mem_flatMap] at hm
  obtain ⟨x, hx, hm⟩ := hm
  rw [List.mem_range] at hx hy
  revert hm
  cases hs : g.getSquare ⟨(x : Int), (y : Int)⟩ with
  | none => intro hm; exact absurd hm (by simp)
  | some piece =>
    intro hm
    rcases mem_ite_list hm with hm | hm
    · obtain ⟨hfrom, hto⟩ := pieceMoves_spec g piece m hm
      have hq : inB (⟨(x : Int), (y : Int)⟩ : Position) := inB_ofNat x y hx hy
      obtain ⟨hpos, _, _⟩ := InvP_at g hInv _ piece hq hs
      rw [hfrom, hpos]
      exact ⟨by rw [hs]; rfl, hq, hto⟩
    · exact absurd hm (by simp)

theorem legalMovesLoop_restore (kt : Piece) (oc : Color) :
    ∀ (ms : List Move) (g : Chesspirito), InvP g →
      (∀ m ∈ ms, (g.getSquare m.from').isSome ∧ inB m.from' ∧ inB m.to') →
      (legalMovesLoop kt oc ms g).2 = g := by
  intro ms
  induction ms with
  | nil => intro g _ _; rfl
  | cons m rest ih =>
    intro g hInv hms
    obtain ⟨hocc, hf, ht⟩ := hms m (by simp)
    obtain ⟨sq, hsq⟩ := Option.isSome_iff_exists.mp hocc
    have hstep : (legalMovesLoop kt oc (m :: rest) g).2 =
        (legalMovesLoop kt oc rest
          ((((g.setSquare m.to' (g.getSquare m.from')).setSquare m.from'
            none).setSquare m.to' (g.getSquare m.to')).setSquare m.from'
            (g.getSquare m.from'))).2 := rfl
    rw [hstep, hsq, probe_restore g m.from' m.to' sq hInv hf ht hsq]
    exact ih g hInv fun a ha => hms a (by simp [ha])

/-- The simulate-and-revert loop leaves the whole state unchanged (the claim
of the Legality Filter's frame property), given the representation invariant. -/
theorem generateLegalMoves_restore (g : Chesspirito) (c : Color) (hInv : InvP g) :
    (g.generateLegalMoves c).2 = g := by
  unfold Chesspirito.generateLegalMoves
  exact legalMovesLoop_restore _ _ _ g hInv
    (fun m hm => generateMoves_spec g c hInv m hm)

/-- The simulate-and-revert loop never touches any field other than the board
and the cached king positions (no invariant needed). -/
theorem legalMovesLoop_frame (kt : Piece) (oc : Color) :
    ∀ (ms : List Move) (g : Chesspirito),
      (legalMovesLoop kt oc ms g).2.playingColor = g.playingColor ∧
      (legalMovesLoop kt oc ms g).2.enPassantable = g.enPassantable ∧
      (legalMovesLoop kt oc ms g).2.history = g.history ∧
      (legalMovesLoop kt oc ms g).2.gameOver = g.gameOver ∧
      (legalMovesLoop kt oc ms g).2.check = g.check ∧
      (legalMovesLoop kt oc ms g).2.currLegalMoves = g.currLegalMoves := by
  intro ms
  induction ms with
  | nil => intro g; exact ⟨rfl, rfl, rfl, rfl, rfl, rfl⟩
  | cons m rest ih =>
    intro g
    have h4 := ih ((((g.setSquare m.to' (g.getSquare m.from')).setSquare m.from'
      none).setSquare m.to' (g.getSquare m.to')).setSquare m.from'
      (g.getSquare m.from'))
    refine ⟨?_, ?_, ?_, ?_, ?_, ?_⟩ <;>
      first
      | (show (legalMovesLoop kt oc (m :: rest) g).2.playingColor = _
         rw [show (legalMovesLoop kt oc (m :: rest) g).2 =
           (legalMovesLoop kt oc rest ((((g.setSquare m.to'
             (g.getSquare m.from')).setSquare m.from' none).setSquare m.to'
             (g.getSquare m.to')).setSquare m.from' (g.getSquare m.from'))).2
           from rfl, h4.1]
         rw [setSquare_playingColor, setSquare_playingColor,
           setSquare_playingColor, setSquare_playingColor])
      | (show (legalMovesLoop kt oc (m :: rest) g).2.enPassantable = _
         rw [show (legalMovesLoop kt oc (m :: rest) g).2 =
           (legalMovesLoop kt oc rest ((((g.setSquare m.to'
             (g.getSquare m.from')).setSquare m.from' none).setSquare m.to'
             (g.getSquare m.to')).setSquare m.from' (g.getSquare m.from'))).2
           from rfl, h4.2.1]
         rw [setSquare_enPassantable, setSquare_enPassantable,
           setSquare_enPassantable, setSquare_enPassantable])
      | (show (legalMovesLoop kt oc (m :: rest) g).2.history = _
         rw [show (legalMovesLoop kt oc (m :: rest) g).2 =
           (legalMovesLoop kt oc rest ((((g.setSquare m.to'
             (g.getSquare m.from')).setSquare m.from' none).setSquare m.to'
             (g.getSquare m.to')).setSquare m.from' (g.getSquare m.from'))).2
           from rfl, h4.2.2.1]
         rw [setSquare_history, setSquare_history, setSquare_history,
           setSquare_history])
      | (show (legalMovesLoop kt oc (m :: rest) g).2.gameOver = _
         rw [show (legalMovesLoop kt oc (m :: rest) g).2 =
           (legalMovesLoop kt oc rest ((((g.setSquare m.to'
             (g.getSquare m.from')).setSquare m.from' none).setSquare m.to'
             (g.getSquare m.to')).setSquare m.from' (g.getSquare m.from'))).2
           from rfl, h4.2.2.2.1]
         rw [setSquare_gameOver, setSquare_gameOver, setSquare_gameOver,
           setSquare_gameOver])
      | (show (legalMovesLoop kt oc (m :: rest) g).2.check = _
         rw [show (legalMovesLoop kt oc (m :: rest) g).2 =
           (legalMovesLoop kt oc rest ((((g.setSquare m.to'
             (g.getSquare m.from')).setSquare m.from' none).setSquare m.to'
             (g.getSquare m.to')).setSquare m.from' (g.getSquare m.from'))).2
           from rfl, h4.2.2.2.2.1]
         rw [setSquare_check, setSquare_check, setSquare_check, setSquare_check])
      | (show (legalMovesLoop kt oc (m :: rest) g).2.currLegalMoves = _
         rw [show (legalMovesLoop kt oc (m :: rest) g).2 =
           (legalMovesLoop kt oc rest ((((g.setSquare m.to'
             (g.getSquare m.from')).setSquare m.from' none).setSquare m.to'
             (g.getSquare m.to')).setSquare m.from' (g.getSquare m.from'))).2
           from rfl, h4.2.2.2.2.2]
         rw [setSquare_currLegalMoves, setSquare_currLegalMoves,
           setSquare_currLegalMoves, setSquare_currLegalMoves])

/-- A square argument that does not store a king. -/
def kingFree : Square → Prop
  | none => True
  | some pc => isKingType pc.type = false

theorem InvP_update_misc (g g' : Chesspirito) (hb : g'.board = g.board)
    (hw : g'.whiteKingPosition = g.whiteKingPosition)
    (hbk : g'.blackKingPosition = g.blackKingPosition) (h : InvP g) : InvP g' := by
  have hpc : ∀ x y, pieceOkB g' x y = pieceOkB g x y := by
    intro x y
    unfold pieceOkB
    rw [hb, hw, hbk]
  refine ⟨by rw [hb]; exact h.1, fun x y hx hy => ?_⟩
  rw [hpc]
  exact h.2 x y hx hy

theorem InvP_setSquare (g : Chesspirito) (p : Position) (s : Square)
    (hInv : InvP g) (hp : inB p) (hk : kingFree s) :
    InvP (g.setSquare p s) := by
  have hwkeep : (g.setSquare p s).whiteKingPosition = g.whiteKingPosition := by
    rw [setSquare_wkp]
    cases s with
    | none => rfl
    | some pc =>
      have : isKingType pc.type = false := hk
      simp [this]
  have hbkeep : (g.setSquare p s).blackKingPosition = g.blackKingPosition := by
    rw [setSquare_bkp]
    cases s with
    | none => rfl
    | some pc =>
      have : isKingType pc.type = false := hk
      simp [this]
  refine ⟨dims8_setSquare g p s hInv.1 hp, fun x y hx hy => ?_⟩
  rw [pieceOkB_iff]
  intro pc hpc
  have hqB : inB (⟨(x : Int), (y : Int)⟩ : Position) := inB_ofNat x y hx hy
  by_cases hpq : p = (⟨(x : Int), (y : Int)⟩ : Position)
  · rw [← hpq] at hpc ⊢
    rw [getSquare_setSquare_self g p s hInv.1 hp] at hpc
    cases s with
    | none => exact absurd hpc (by simp [storedVal])
    | some pc0 =>
      have hks : isKingType pc0.type = false := hk
      have hpc' : pc = { pc0 with position := p } := by
        have : storedVal p (some pc0) = some { pc0 with position := p } := rfl
        rw [this] at hpc
        injection hpc with h
        exact h.symm
      subst hpc'
      refine ⟨rfl, ?_, ?_⟩
      · intro ht
        rw [show ({ pc0 with position := p } : ChessPiece).type = pc0.type from rfl,
          ht] at hks
        exact absurd hks (by simp [isKingType])
      · intro ht
        rw [show ({ pc0 with position := p } : ChessPiece).type = pc0.type from rfl,
          ht] at hks
        exact absurd hks (by simp [isKingType])
  · rw [getSquare_setSquare_ne g p _ s hp hqB hpq] at hpc
    have hold := (pieceOkB_iff g x y).mp (hInv.2 x y hx hy) pc hpc
    refine ⟨hold.1, ?_, ?_⟩
    · intro ht
      rw [hwkeep]
      exact hold.2.1 ht
    · intro ht
      rw [hbkeep]
      exact hold.2.2 ht

/-! ### Concrete scenarios

The position strings below are chosen to parse under the constructor's index
quirk (a digit `d` at string index `x` advances the shared index/file counter
by `d + 1`): every rank is either piece characters flush left followed by one
digit, all-digit patterns such as "1111K11Q" (each '1' advances two files),
or a full rank of pieces. -/

set_option maxRecDepth 10000

def fenC1 : String := "k7/8/8/8/8/8/P7/K7 w"

def gameC1 : Chesspirito := getOk (Chesspirito.construct fenC1)

def gameC1m : Chesspirito := getOk (gameC1.move ⟨0, 6⟩ ⟨0, 4⟩ Promotion.Q)

def gameC1u : Chesspirito := getOk gameC1m.undo

/-- C1: the claim fails on the code.  From kings-and-a-pawn position `fenC1`,
white's double step a2–a4 sets the en-passant target; the immediately
following `undo()` restores board occupancy, side to move and check, but the
en-passant target stays `a4` instead of returning to `none` (`undo` only
rewrites `enPassantable` when the undone move was an en-passant capture). -/
theorem undo_leaves_enPassantable_stale :
    (Chesspirito.construct fenC1).isOk = true ∧
    (gameC1.move ⟨0, 6⟩ ⟨0, 4⟩ Promotion.Q).isOk = true ∧
    gameC1m.undo.isOk = true ∧
    gameC1.enPassantable = none ∧
    gameC1m.enPassantable = some ⟨0, 4⟩ ∧
    gameC1u.enPassantable = some ⟨0, 4⟩ ∧
    gameC1u.board = gameC1.board ∧
    gameC1u.playingColor = gameC1.playingColor ∧
    gameC1u.check = gameC1.check := by
  decide

def fenC2 : String := "kn6/8/8/8/8/8/P7/K7 w"

def gameC2 : Chesspirito := getOk (Chesspirito.construct fenC2)

def gameC2w : Chesspirito := getOk (gameC2.move ⟨0, 6⟩ ⟨0, 4⟩ Promotion.Q)

def gameC2b : Chesspirito := getOk (gameC2w.move ⟨1, 0⟩ ⟨2, 2⟩ Promotion.Q)

/-- C2 counterexample: after white's double step a2–a4 the en-passant target
is `a4`; black then plays the knight b8–c6 (not a pawn double step), yet the
target is NOT cleared — `move()` only touches `enPassantable` on pawn moves. -/
theorem knight_move_keeps_enPassantable :
    (gameC2w.move ⟨1, 0⟩ ⟨2, 2⟩ Promotion.Q).isOk = true ∧
    (gameC2w.getSquare ⟨1, 0⟩).map (fun p => p.type) = some Piece.BLACK_KNIGHT ∧
    gameC2w.enPassantable = some ⟨0, 4⟩ ∧
    gameC2b.enPassantable = some ⟨0, 4⟩ := by
  decide

def fenC3 : String := "k7/8/8/8/p7/8/PP6/K7 w"

def gameC3 : Chesspirito := getOk (Chesspirito.construct fenC3)

def gameC3w : Chesspirito := getOk (gameC3.move ⟨1, 6⟩ ⟨1, 4⟩ Promotion.Q)

def gameC3k : Chesspirito := getOk (gameC3w.move ⟨0, 0⟩ ⟨1, 0⟩ Promotion.Q)

def gameC3u : Chesspirito := getOk gameC3k.undo

/-- The en-passant capture a4xb3 for black (flagged by the pawn generator). -/
def epCaptureMove : Move := ⟨⟨0, 4⟩, ⟨1, 5⟩, false, true, true⟩

/-- C3: the claim fails on the code.  After white's b2–b4 the black cache
(computed inside `move()` while `playingColor` is still white) contains the
flagged en-passant capture a4xb3.  Black plays Ka8–b8 and it is undone;
`undo()` regenerates black's cache while `playingColor` is black, and the
same board state (identical board, side to move, en-passant target, check)
now yields NO en-passant move: the rank offset is computed from
`playingColor` at generation time, not from the capturing pawn's color. -/
theorem enPassant_flag_depends_on_playingColor :
    (gameC3.move ⟨1, 6⟩ ⟨1, 4⟩ Promotion.Q).isOk = true ∧
    (gameC3w.move ⟨0, 0⟩ ⟨1, 0⟩ Promotion.Q).isOk = true ∧
    gameC3k.undo.isOk = true ∧
    gameC3u.board = gameC3w.board ∧
    gameC3u.playingColor = gameC3w.playingColor ∧
    gameC3u.enPassantable = gameC3w.enPassantable ∧
    gameC3u.check = gameC3w.check ∧
    epCaptureMove ∈ gameC3w.currLegalMoves ∧
    epCaptureMove ∉ gameC3u.currLegalMoves ∧
    (gameC3u.currLegalMoves.filter (fun m => m.enPassant)).length = 0 := by
  decide

def fenC5 : String := "k7/8/8/8/8/8/8/1111K11Q w"

def gameC5 : Chesspirito := getOk (Chesspirito.construct fenC5)

def gameC5c : Chesspirito := getOk (gameC5.move ⟨4, 7⟩ ⟨6, 7⟩ Promotion.Q)

/-- The rook precondition as the claim states it: a rook with empty move
history must occupy the fixed rook square. -/
def specRookPrecondB (g : Chesspirito) (rookFrom : Position) : Bool :=
  match g.getSquare rookFrom with
  | some r =>
    (r.type = Piece.WHITE_ROOK || r.type = Piece.BLACK_ROOK) && r.history.isEmpty
  | none => false

/-- C5 counterexample: in `fenC5` a WHITE QUEEN (not a rook) sits on h1 with
empty history; the kingside castling call e1–g1 nevertheless SUCCEEDS and
relocates the queen to f1 — the code only checks that some piece with empty
history occupies the fixed square, so the claim's "succeeds exactly when ...
the corresponding rook exists ..." is false. -/
theorem castling_succeeds_without_rook :
    (gameC5.move ⟨4, 7⟩ ⟨6, 7⟩ Promotion.Q).isOk = true ∧
    specRookPrecondB gameC5 ⟨7, 7⟩ = false ∧
    (gameC5.getSquare ⟨7, 7⟩).map (fun p => p.type) = some Piece.WHITE_QUEEN ∧
    (gameC5c.getSquare ⟨6, 7⟩).map (fun p => p.type) = some Piece.WHITE_KING ∧
    (gameC5c.getSquare ⟨5, 7⟩).map (fun p => p.type) = some Piece.WHITE_QUEEN := by
  decide

def fenC7 : String := "1111k111/P7/8/8/8/8/8/K7 w"

def gameC7 : Chesspirito := getOk (Chesspirito.construct fenC7)

def gameC7q : Chesspirito := getOk (gameC7.move ⟨0, 1⟩ ⟨0, 0⟩ Promotion.Q)

/-- C8 counterexample: after the promotion a7–a8=Q, the history entry's
`promotion` field holds the moved PAWN (type `P`, with its pushed history),
while the piece actually standing on a8 is the new QUEEN — the stored
reference is not the new piece. -/
theorem history_promotion_field_is_the_pawn :
    (gameC7.move ⟨0, 1⟩ ⟨0, 0⟩ Promotion.Q).isOk = true ∧
    ((gameC7q.history.getLast?.bind fun e => e.promotion).map fun p => p.type) =
      some Piece.WHITE_PAWN ∧
    ((gameC7q.getSquare ⟨0, 0⟩).map fun p => p.type) = some Piece.WHITE_QUEEN ∧
    (gameC7q.history.getLast?.bind fun e => e.promotion) ≠
      gameC7q.getSquare ⟨0, 0⟩ := by
  decide

def initialGame : Chesspirito := getOk (Chesspirito.construct DEFAULT_FEN)

/-- C9: constructing the engine from the standard initial position succeeds
and the legal-move cache set by the constructor has exactly 20 moves. -/
theorem initial_position_has_20_legal_moves :
    (Chesspirito.construct DEFAULT_FEN).isOk = true ∧
    initialGame.currLegalMoves.length = 20 := by
  decide

/-- Total version of `inCheck` (meaningful when the king cache is set). -/
def inCheckB (g : Chesspirito) (color : Color) : Bool :=
  match g.getKingPosition? color with
  | none => false
  | some kingPos => g.isSquareAttacked (getOppositeColor color) kingPos

theorem inCheck?_ok (g : Chesspirito) (c : Color) (b : Bool)
    (h : g.inCheck? c = Except.ok b) : inCheckB g c = b := by
  unfold Chesspirito.inCheck? at h
  split at h
  · exact absurd h (by simp)
  · next kp heq =>
    injection h with h2
    unfold inCheckB
    rw [heq]
    exact h2

theorem handleNextTurn_enPassantable (g : Chesspirito) (m d : Bool) (n : List Move) :
    (g.handleNextTurn m d n).enPassantable = g.enPassantable := by
  unfold Chesspirito.handleNextTurn Chesspirito.togglePlayingColor
  cases m <;> cases d <;> rfl

theorem handleNextTurn_board (g : Chesspirito) (m d : Bool) (n : List Move) :
    (g.handleNextTurn m d n).board = g.board := by
  unfold Chesspirito.handleNextTurn Chesspirito.togglePlayingColor
  cases m <;> cases d <;> rfl

theorem handleNextTurn_history (g : Chesspirito) (m d : Bool) (n : List Move) :
    (g.handleNextTurn m d n).history = g.history := by
  unfold Chesspirito.handleNextTurn Chesspirito.togglePlayingColor
  cases m <;> cases d <;> rfl

theorem handleNextTurn_gameOver_mate (g : Chesspirito) (n : List Move) :
    (g.handleNextTurn true false n).gameOver =
      some (if g.playingColor = Color.w then "1-0" else "0-1") := by
  unfold Chesspirito.handleNextTurn
  rfl

theorem generateLegalMoves_frame_pc (g : Chesspirito) (c : Color) :
    (g.generateLegalMoves c).2.playingColor = g.playingColor :=
  (legalMovesLoop_frame _ _ _ g).1

theorem generateLegalMoves_frame_ep (g : Chesspirito) (c : Color) :
    (g.generateLegalMoves c).2.enPassantable = g.enPassantable :=
  (legalMovesLoop_frame _ _ _ g).2.1

theorem generateLegalMoves_frame_hist (g : Chesspirito) (c : Color) :
    (g.generateLegalMoves c).2.history = g.history :=
  (legalMovesLoop_frame _ _ _ g).2.2.1

theorem generateLegalMoves_frame_go (g : Chesspirito) (c : Color) :
    (g.generateLegalMoves c).2.gameOver = g.gameOver :=
  (legalMovesLoop_frame _ _ _ g).2.2.2.1

/-- The capture step of `move()`'s success tail: place the mover, vacate the
source, and on an en-passant hit take the piece from the recorded square
(returns the captured square and the resulting state). -/
def moveCapturePhase (g : Chesspirito) (fromPos toPos : Position)
    (piece : ChessPiece) (enPassant : Bool) : Square × Chesspirito :=
  match ((g.setSquare toPos (some piece)).setSquare fromPos none).enPassantable with
  | some ep =>
    if enPassant then
      (((g.setSquare toPos (some piece)).setSquare fromPos none).getSquare ep,
       ((g.setSquare toPos (some piece)).setSquare fromPos none).setSquare ep none)
    else (g.getSquare toPos, (g.setSquare toPos (some piece)).setSquare fromPos none)
  | none => (g.getSquare toPos, (g.setSquare toPos (some piece)).setSquare fromPos none)

/-- The en-passant-target update of `move()` (only pawn moves touch it). -/
def pawnEpPhase (g : Chesspirito) (fromPos toPos : Position) (piece : ChessPiece)
    (attacking : Bool) : Chesspirito :=
  if isPawnType piece.type then
    (if !attacking && decide ((toPos.y - fromPos.y).natAbs = 2) then
       { g with enPassantable := some toPos }
     else { g with enPassantable := none })
  else g

/-- `toPos.y === lastRank` for the state after the en-passant update. -/
def hasPromotedB (g1 : Chesspirito) (toPos : Position) (piece : ChessPiece) : Bool :=
  isPawnType piece.type &&
    decide (toPos.y = (if g1.playingColor = Color.w then (0 : Int) else 7))

/-- The pawn block of `move()`: en-passant-target update plus promotion
substitution; also returns the `hasPromoted` flag. -/
def movePawnPhase (g : Chesspirito) (fromPos toPos : Position)
    (promotion : Promotion) (piece : ChessPiece) (attacking : Bool) :
    Chesspirito × Bool :=
  (if hasPromotedB (pawnEpPhase g fromPos toPos piece attacking) toPos piece then
     (pawnEpPhase g fromPos toPos piece attacking).setSquare toPos
       (some (promotionCreate
         (pawnEpPhase g fromPos toPos piece attacking).playingColor promotion toPos))
   else pawnEpPhase g fromPos toPos piece attacking,
   hasPromotedB (pawnEpPhase g fromPos toPos piece attacking) toPos piece)

/-- The opponent legal moves computed at the end of `move()`. -/
def moveFinishLM (g : Chesspirito) : List Move :=
  (g.generateLegalMoves (getOppositeColor g.playingColor)).1

/-- The opponent-in-check test at the end of `move()` (total form). -/
def moveFinishChk (g : Chesspirito) : Bool :=
  inCheckB (g.generateLegalMoves (getOppositeColor g.playingColor)).2
    (getOppositeColor g.playingColor)

/-- `piece.history.push(fromPos)` applied to the moved piece object. -/
def pushedPiece (piece : ChessPiece) (fromPos toPos : Position) : ChessPiece :=
  { piece with position := toPos, history := piece.history ++ [fromPos] }

/-- State after the check-recomputation at the end of `move()`. -/
def moveFinishCheckState (g : Chesspirito) : Chesspirito :=
  { (g.generateLegalMoves (getOppositeColor g.playingColor)).2 with
    check := if moveFinishChk g then some (getOppositeColor g.playingColor) else none }

/-- State after re-storing the pushed mover (skipped when promoted). -/
def moveFinishBoardState (g : Chesspirito) (fromPos toPos : Position)
    (piece : ChessPiece) (hasPromoted : Bool) : Chesspirito :=
  if hasPromoted then moveFinishCheckState g
  else (moveFinishCheckState g).setSquare toPos (some (pushedPiece piece fromPos toPos))

/-- The history entry appended by `move()`. -/
def moveEntry (g : Chesspirito) (fromPos toPos : Position) (promotion : Promotion)
    (piece : ChessPiece) (enPassant : Bool) (capture : Square)
    (hasPromoted : Bool) : HistoryMove :=
  { from' := fromPos, to' := toPos, capture := capture,
    promotion := if hasPromoted then some (pushedPiece piece fromPos toPos) else none,
    castling := none,
    lan := generateLanFromMove (pushedPiece piece fromPos toPos)
      (getMoveFromPosition fromPos) (getMoveFromPosition toPos) capture.isSome
      (if hasPromoted then some promotion else none) enPassant (moveFinishChk g)
      ((moveFinishLM g).isEmpty && moveFinishChk g) }

/-- Everything in `move()` after the pawn block: opponent legal moves, check,
mate/draw, the mover's history push, the history entry and the turn switch. -/
def moveFinish (g : Chesspirito) (fromPos toPos : Position) (promotion : Promotion)
    (piece : ChessPiece) (enPassant : Bool) (capture : Square)
    (hasPromoted : Bool) : Chesspirito :=
  ({ moveFinishBoardState g fromPos toPos piece hasPromoted with
     history := (moveFinishBoardState g fromPos toPos piece hasPromoted).history ++
       [moveEntry g fromPos toPos promotion piece enPassant capture hasPromoted]
   }).handleNextTurn
    ((moveFinishLM g).isEmpty && moveFinishChk g)
    ((moveFinishLM g).isEmpty && !moveFinishChk g)
    (moveFinishLM g)

/-- The success tail of `move()` after the legal-move lookup, as an explicit
state transformer (definitionally equal to the tail of `move`;
`move` returns `ok (moveApplied ...)` whenever it succeeds on this path). -/
def moveApplied (g0 : Chesspirito) (fromPos toPos : Position)
    (promotion : Promotion) (piece : ChessPiece) (enPassant : Bool) : Chesspirito :=
  moveFinish
    (movePawnPhase (moveCapturePhase g0 fromPos toPos piece enPassant).2 fromPos
      toPos promotion piece ((g0.getSquare toPos).isSome)).1
    fromPos toPos promotion piece enPassant
    (moveCapturePhase g0 fromPos toPos piece enPassant).1
    (movePawnPhase (moveCapturePhase g0 fromPos toPos piece enPassant).2 fromPos
      toPos promotion piece ((g0.getSquare toPos).isSome)).2

/-- Inverting the `match` on `inCheck?` at the end of the mutating paths. -/
theorem match_inCheck_ok (gX : Chesspirito) (c : Color) (k : Bool → Chesspirito)
    (g' : Chesspirito)
    (h : (match gX.inCheck? c with
          | Except.error e => Except.error e
          | Except.ok chk => Except.ok (k chk)) = Except.ok g') :
    g' = k (inCheckB gX c) := by
  cases hc : gX.inCheck? c with
  | error e =>
    rw [hc] at h
    exact absurd h (by simp)
  | ok chk =>
    rw [hc] at h
    injection h with h
    rw [← h, inCheck?_ok _ _ _ hc]

set_option maxHeartbeats 1000000 in
/-- Inversion of a successful non-castling `move()`: the result is
`moveApplied` at the first matching cached move's `enPassant` flag. -/
theorem move_ok_inv (g : Chesspirito) (f t : Position) (promo : Promotion)
    (g' : Chesspirito) (piece : ChessPiece)
    (hmove : g.move f t promo = Except.ok g')
    (hpiece : g.getSquare f = some piece)
    (hshape : (isKingType piece.type && decide (f.y = t.y) &&
      decide ((t.x - f.x).natAbs = 2)) = false) :
    ∃ matched, g.currLegalMoves.find?
        (fun m => isSamePosition m.from' f && isSamePosition m.to' t) =
        some matched ∧
      g' = moveApplied g f t promo piece matched.enPassant := by
  unfold Chesspirito.move at hmove
  split at hmove
  · exact absurd hmove (by simp)
  · split at hmove
    · exact absurd hmove (by simp)
    · split at hmove
      · exact absurd hmove (by simp)
      · next piece2 hpiece2 =>
        rw [hpiece] at hpiece2
        injection hpiece2 with hp2
        subst hp2
        split at hmove
        · exact absurd hmove (by simp)
        · split at hmove
          · exact absurd hmove (by simp)
          · split at hmove
            · exact absurd hmove (by simp)
            · split at hmove
              · next hc =>
                rw [hshape] at hc
                exact absurd hc (by simp)
              · split at hmove
                · exact absurd hmove (by simp)
                · next matched hfind =>
                  refine ⟨matched, hfind, ?_⟩
                  have h2 := match_inCheck_ok _ _ _ _ hmove
                  rw [h2]
                  rfl

theorem moveCapturePhase_ep (g : Chesspirito) (f t : Position) (piece : ChessPiece)
    (e : Bool) :
    (moveCapturePhase g f t piece e).2.enPassantable = g.enPassantable := by
  unfold moveCapturePhase
  split
  · split <;>
      simp only [setSquare_enPassantable]
  · simp only [setSquare_enPassantable]

theorem moveCapturePhase_pc (g : Chesspirito) (f t : Position) (piece : ChessPiece)
    (e : Bool) :
    (moveCapturePhase g f t piece e).2.playingColor = g.playingColor := by
  unfold moveCapturePhase
  split
  · split <;>
      simp only [setSquare_playingColor]
  · simp only [setSquare_playingColor]

theorem moveCapturePhase_hist (g : Chesspirito) (f t : Position) (piece : ChessPiece)
    (e : Bool) :
    (moveCapturePhase g f t piece e).2.history = g.history := by
  unfold moveCapturePhase
  split
  · split <;>
      simp only [setSquare_history]
  · simp only [setSquare_history]

theorem pawnEpPhase_ep (g : Chesspirito) (f t : Position) (piece : ChessPiece)
    (a : Bool) :
    (pawnEpPhase g f t piece a).enPassantable =
      if isPawnType piece.type then
        (if !a && decide ((t.y - f.y).natAbs = 2) then some t else none)
      else g.enPassantable := by
  unfold pawnEpPhase
  split
  · split <;> rfl
  · rfl

theorem pawnEpPhase_pc (g : Chesspirito) (f t : Position) (piece : ChessPiece)
    (a : Bool) :
    (pawnEpPhase g f t piece a).playingColor = g.playingColor := by
  unfold pawnEpPhase
  split
  · split <;> rfl
  · rfl

theorem pawnEpPhase_hist (g : Chesspirito) (f t : Position) (piece : ChessPiece)
    (a : Bool) :
    (pawnEpPhase g f t piece a).history = g.history := by
  unfold pawnEpPhase
  split
  · split <;> rfl
  · rfl

theorem pawnEpPhase_board (g : Chesspirito) (f t : Position) (piece : ChessPiece)
    (a : Bool) :
    (pawnEpPhase g f t piece a).board = g.board := by
  unfold pawnEpPhase
  split
  · split <;> rfl
  · rfl

theorem pawnEpPhase_wkp (g : Chesspirito) (f t : Position) (piece : ChessPiece)
    (a : Bool) :
    (pawnEpPhase g f t piece a).whiteKingPosition = g.whiteKingPosition := by
  unfold pawnEpPhase
  split
  · split <;> rfl
  · rfl

theorem pawnEpPhase_bkp (g : Chesspirito) (f t : Position) (piece : ChessPiece)
    (a : Bool) :
    (pawnEpPhase g f t piece a).blackKingPosition = g.blackKingPosition := by
  unfold pawnEpPhase
  split
  · split <;> rfl
  · rfl

theorem movePawnPhase_fst_ep (g : Chesspirito) (f t : Position) (promo : Promotion)
    (piece : ChessPiece) (a : Bool) :
    (movePawnPhase g f t promo piece a).1.enPassantable =
      (pawnEpPhase g f t piece a).enPassantable := by
  unfold movePawnPhase
  split
  · simp only [setSquare_enPassantable]
  · rfl

theorem movePawnPhase_fst_pc (g : Chesspirito) (f t : Position) (promo : Promotion)
    (piece : ChessPiece) (a : Bool) :
    (movePawnPhase g f t promo piece a).1.playingColor = g.playingColor := by
  unfold movePawnPhase
  split
  · simp only [setSquare_playingColor]
    exact pawnEpPhase_pc g f t piece a
  · exact pawnEpPhase_pc g f t piece a

theorem movePawnPhase_fst_hist (g : Chesspirito) (f t : Position) (promo : Promotion)
    (piece : ChessPiece) (a : Bool) :
    (movePawnPhase g f t promo piece a).1.history = g.history := by
  unfold movePawnPhase
  split
  · simp only [setSquare_history]
    exact pawnEpPhase_hist g f t piece a
  · exact pawnEpPhase_hist g f t piece a

theorem moveFinish_ep (g : Chesspirito) (f t : Position) (promo : Promotion)
    (piece : ChessPiece) (e : Bool) (capture : Square) (hasPromoted : Bool) :
    (moveFinish g f t promo piece e capture hasPromoted).enPassantable =
      g.enPassantable := by
  unfold moveFinish
  rw [handleNextTurn_enPassantable]
  show (moveFinishBoardState g f t piece hasPromoted).enPassantable = _
  unfold moveFinishBoardState
  split
  · unfold moveFinishCheckState
    show (g.generateLegalMoves (getOppositeColor g.playingColor)).2.enPassantable = _
    exact generateLegalMoves_frame_ep g _
  · rw [setSquare_enPassantable]
    unfold moveFinishCheckState
    show (g.generateLegalMoves (getOppositeColor g.playingColor)).2.enPassantable = _
    exact generateLegalMoves_frame_ep g _

/-- `moveApplied` updates the en-passant target exactly as the claim's
amendment states: set to the destination on a pawn double step, cleared on
any other pawn move, untouched otherwise. -/
theorem moveApplied_ep (g : Chesspirito) (f t : Position) (promo : Promotion)
    (piece : ChessPiece) (e : Bool) :
    (moveApplied g f t promo piece e).enPassantable =
      if isPawnType piece.type then
        (if !(g.getSquare t).isSome && decide ((t.y - f.y).natAbs = 2) then some t
         else none)
      else g.enPassantable := by
  unfold moveApplied
  rw [moveFinish_ep, movePawnPhase_fst_ep, pawnEpPhase_ep, moveCapturePhase_ep]

set_option maxHeartbeats 2000000 in
theorem handleCastling_ep (g : Chesspirito) (king : ChessPiece) (f t : Position)
    (g' : Chesspirito) (h : g.handleCastling king f t = Except.ok g') :
    g'.enPassantable = g.enPassantable := by
  unfold Chesspirito.handleCastling at h
  split at h
  · exact absurd h (by simp)
  · simp only [] at h
    repeat' split at h
    all_goals
      first
      | exact Except.noConfusion h
      | (injection h with h
         rw [← h]
         simp [handleNextTurn_enPassantable, setSquare_enPassantable,
           generateLegalMoves_frame_ep])

set_option maxHeartbeats 1000000 in
/-- C2 (amended): after every successfully applied `move()`, the en-passant
target equals the DESTINATION square of the move when the mover is a pawn
that advanced two ranks onto an unoccupied square; it is cleared after any
other pawn move; and it is left UNCHANGED by non-pawn moves and by castling
(the code only writes `enPassantable` inside the pawn branch). -/
theorem move_enPassantable_update (g : Chesspirito) (f t : Position)
    (promo : Promotion) (g' : Chesspirito)
    (hmove : g.move f t promo = Except.ok g') :
    g'.enPassantable =
      match g.getSquare f with
      | some p =>
        if isKingType p.type && decide (f.y = t.y) &&
            decide ((t.x - f.x).natAbs = 2) then g.enPassantable
        else if isPawnType p.type then
          (if !(g.getSquare t).isSome && decide ((t.y - f.y).natAbs = 2) then some t
           else none)
        else g.enPassantable
      | none => g.enPassantable := by
  have hmove0 := hmove
  unfold Chesspirito.move at hmove
  split at hmove
  · exact Except.noConfusion hmove
  · split at hmove
    · exact Except.noConfusion hmove
    · split at hmove
      · exact Except.noConfusion hmove
      · next piece hpiece =>
        rw [hpiece]
        split at hmove
        · exact Except.noConfusion hmove
        · by_cases hshape : (isKingType piece.type && decide (f.y = t.y) &&
            decide ((t.x - f.x).natAbs = 2)) = true
          · simp only [hshape, if_true]
            split at hmove
            · exact Except.noConfusion hmove
            · split at hmove
              · exact Except.noConfusion hmove
              · exact handleCastling_ep g piece f t g' hmove
          · have hshape' : (isKingType piece.type && decide (f.y = t.y) &&
                decide ((t.x - f.x).natAbs = 2)) = false := by
              revert hshape
              cases isKingType piece.type && decide (f.y = t.y) &&
                decide ((t.x - f.x).natAbs = 2) <;> simp
            obtain ⟨matched, hfind, hg'⟩ :=
              move_ok_inv g f t promo g' piece hmove0 hpiece hshape'
            rw [hg', moveApplied_ep]
            simp only [hshape', Bool.false_eq_true, if_false]

theorem move_enPassantable_update_witness :
    gameC2b.enPassantable =
      (match gameC2w.getSquare ⟨1, 0⟩ with
       | some p =>
         if isKingType p.type && decide ((⟨1, 0⟩ : Position).y = (⟨2, 2⟩ : Position).y) &&
             decide (((⟨2, 2⟩ : Position).x - (⟨1, 0⟩ : Position).x).natAbs = 2)
         then gameC2w.enPassantable
         else if isPawnType p.type then
           (if !(gameC2w.getSquare ⟨2, 2⟩).isSome &&
               decide (((⟨2, 2⟩ : Position).y - (⟨1, 0⟩ : Position).y).natAbs = 2)
            then some ⟨2, 2⟩ else none)
         else gameC2w.enPassantable
       | none => gameC2w.enPassantable) ∧
    gameC2b.enPassantable = some ⟨0, 4⟩ :=
  ⟨move_enPassantable_update gameC2w ⟨1, 0⟩ ⟨2, 2⟩ Promotion.Q gameC2b (by rfl),
   by decide⟩

/-- C4: under the representation invariant (piece `position` fields match
their slots and the king caches are consistent — true of every state the
engine constructs), the Legality Filter's simulate-and-revert loop returns
the state STRUCTURALLY UNCHANGED: same board (hence every square and every
stored piece position) and same cached king positions, both for the full
`generateLegalMoves` call and after any list of candidate probes. -/
theorem legality_filter_preserves_state (g : Chesspirito) (c : Color)
    (hInv : InvB g = true) :
    (g.generateLegalMoves c).2 = g ∧
    ∀ ms : List Move, (∀ m ∈ ms, m ∈ g.generateMoves c) →
      (legalMovesLoop (if c = Color.w then Piece.WHITE_KING else Piece.BLACK_KING)
        (getOppositeColor c) ms g).2 = g := by
  have hP := (InvB_iff g).mp hInv
  refine ⟨generateLegalMoves_restore g c hP, fun ms hms => ?_⟩
  exact legalMovesLoop_restore _ _ ms g hP
    (fun m hm => generateMoves_spec g c hP m (hms m hm))

theorem legality_filter_preserves_state_witness :
    InvB gameC1 = true ∧ (gameC1.generateLegalMoves Color.w).2 = gameC1 :=
  ⟨by decide, (legality_filter_preserves_state gameC1 Color.w (by decide)).1⟩

/-- C10: if construction from a position string leaves the side to move with
zero legal moves while in check, the constructor awards the win to the side
to move ITSELF ("1-0" for white to move, "0-1" for black to move), whereas
`handleNextTurn` — the path taken by `move()` — awards the same formula to
`playingColor` at a moment when `playingColor` is still the MOVER delivering
mate: the two sites assign opposite winners for a mated side to move. -/
theorem constructor_mate_win_for_side_to_move (fen : String) (g : Chesspirito)
    (hok : Chesspirito.construct fen = Except.ok g)
    (hnm : g.currLegalMoves = [])
    (hchk : g.check = some g.playingColor) :
    g.gameOver = some (if g.playingColor = Color.w then "1-0" else "0-1") ∧
    ∀ (h : Chesspirito) (nlm : List Move),
      (h.handleNextTurn true false nlm).gameOver =
        some (if h.playingColor = Color.w then "1-0" else "0-1") := by
  refine ⟨?_, fun h nlm => handleNextTurn_gameOver_mate h nlm⟩
  unfold Chesspirito.construct at hok
  simp only [] at hok
  split at hok
  · exact Except.noConfusion hok
  · split at hok
    · exact Except.noConfusion hok
    · next chk hchk2 =>
      injection hok with hok
      subst hok
      simp only [] at hnm hchk ⊢
      rw [hnm] at hchk ⊢
      cases chk with
      | false => simp at hchk
      | true => simp

/-- Back-rank mate against the side to move (black): Ka8, white Kc7, white
Ra1, black to move with no legal moves while in check. -/
def fenC10 : String := "k7/11K11111/8/8/8/8/8/R7 b"

def gameC10 : Chesspirito := getOk (Chesspirito.construct fenC10)

theorem constructor_mate_win_for_side_to_move_witness :
    Chesspirito.construct fenC10 = Except.ok gameC10 ∧
    gameC10.currLegalMoves = [] ∧
    gameC10.check = some gameC10.playingColor ∧
    gameC10.gameOver = some "0-1" :=
  ⟨by rfl, by decide, by decide, by
    have h := constructor_mate_win_for_side_to_move fenC10 gameC10 (by rfl)
      (by decide) (by decide)
    exact h.1.trans (by decide)⟩

/-! ### C5: castling precondition characterization -/

/-- Precondition 1: the king has never moved. -/
def castlingP1 (king : ChessPiece) : Bool :=
  decide (king.history.length = 0)

/-- Precondition 2 as the code actually checks it: SOME piece (of any type
and color) occupies the rook's home square and has never moved. -/
def castlingP2 (g : Chesspirito) (f t : Position) : Bool :=
  match g.getSquare (castlingRookFrom g f t) with
  | some r => decide (r.history.length = 0)
  | none => false

/-- Precondition 3: all squares between king and rook are empty. -/
def castlingP3 (g : Chesspirito) (f t : Position) : Bool :=
  (castlingEmptyRequired g f t).all fun pos => g.isSquareEmpty pos

/-- Precondition 4: the playing color is not currently in check. -/
def castlingP4 (g : Chesspirito) : Bool :=
  !inCheckB g g.playingColor

/-- Precondition 5: the king's transit and destination squares (the first
two entries of `emptySquaresRequired`) are not attacked. -/
def castlingP5 (g : Chesspirito) (f t : Position) : Bool :=
  !((castlingEmptyRequired g f t).take 2).any fun target =>
    g.isSquareAttacked (getOppositeColor g.playingColor) target

theorem setSquare_wkp_isSome (g : Chesspirito) (p : Position) (s : Square)
    (h : g.whiteKingPosition.isSome = true) :
    (g.setSquare p s).whiteKingPosition.isSome = true := by
  rw [setSquare_wkp]
  split
  · split
    · rfl
    · exact h
  · exact h

theorem setSquare_bkp_isSome (g : Chesspirito) (p : Position) (s : Square)
    (h : g.blackKingPosition.isSome = true) :
    (g.setSquare p s).blackKingPosition.isSome = true := by
  rw [setSquare_bkp]
  split
  · split
    · rfl
    · exact h
  · exact h

theorem legalMovesLoop_kp_isSome (kt : Piece) (oc : Color) :
    ∀ (ms : List Move) (g : Chesspirito),
      g.whiteKingPosition.isSome = true → g.blackKingPosition.isSome = true →
      (legalMovesLoop kt oc ms g).2.whiteKingPosition.isSome = true ∧
      (legalMovesLoop kt oc ms g).2.blackKingPosition.isSome = true := by
  intro ms
  induction ms with
  | nil => intro g hw hb; exact ⟨hw, hb⟩
  | cons m rest ih =>
    intro g hw hb
    have h4 := ih ((((g.setSquare m.to' (g.getSquare m.from')).setSquare m.from'
        none).setSquare m.to' (g.getSquare m.to')).setSquare m.from'
        (g.getSquare m.from'))
      (setSquare_wkp_isSome _ _ _ (setSquare_wkp_isSome _ _ _
        (setSquare_wkp_isSome _ _ _ (setSquare_wkp_isSome _ _ _ hw))))
      (setSquare_bkp_isSome _ _ _ (setSquare_bkp_isSome _ _ _
        (setSquare_bkp_isSome _ _ _ (setSquare_bkp_isSome _ _ _ hb))))
    constructor
    · rw [show (legalMovesLoop kt oc (m :: rest) g).2 =
        (legalMovesLoop kt oc rest ((((g.setSquare m.to'
          (g.getSquare m.from')).setSquare m.from' none).setSquare m.to'
          (g.getSquare m.to')).setSquare m.from' (g.getSquare m.from'))).2
        from rfl]
      exact h4.1
    · rw [show (legalMovesLoop kt oc (m :: rest) g).2 =
        (legalMovesLoop kt oc rest ((((g.setSquare m.to'
          (g.getSquare m.from')).setSquare m.from' none).setSquare m.to'
          (g.getSquare m.to')).setSquare m.from' (g.getSquare m.from'))).2
        from rfl]
      exact h4.2

theorem generateLegalMoves_kp_isSome (g : Chesspirito) (c : Color)
    (hw : g.whiteKingPosition.isSome = true)
    (hb : g.blackKingPosition.isSome = true) :
    (g.generateLegalMoves c).2.whiteKingPosition.isSome = true ∧
    (g.generateLegalMoves c).2.blackKingPosition.isSome = true := by
  unfold Chesspirito.generateLegalMoves
  exact legalMovesLoop_kp_isSome _ _ _ g hw hb

theorem getKingPosition?_isSome (g : Chesspirito) (c : Color)
    (hw : g.whiteKingPosition.isSome = true)
    (hb : g.blackKingPosition.isSome = true) :
    (g.getKingPosition? c).isSome = true := by
  unfold Chesspirito.getKingPosition?
  split
  · exact hw
  · exact hb

theorem inCheck?_eq_ok (g : Chesspirito) (c : Color)
    (h : (g.getKingPosition? c).isSome = true) :
    g.inCheck? c = Except.ok (inCheckB g c) := by
  unfold Chesspirito.inCheck? inCheckB
  cases hk : g.getKingPosition? c with
  | none => rw [hk] at h; exact absurd h (by simp)
  | some kp => rfl

/-- C5 (amended: precondition 2, as coded, only requires that SOME
never-moved piece occupies the rook's home square — `castlingP2` — not that
it is the corresponding rook; see the counterexample theorem for C5's
original reading):
a castling call succeeds exactly when the five preconditions
`castlingP1` … `castlingP5` all hold, and on failure it raises the distinct
error message of the first unmet precondition in that order.  All checks
precede every board mutation in `handleCastling`, so a raised error leaves
the position untouched. -/
theorem handleCastling_characterization (g : Chesspirito) (king : ChessPiece)
    (f t : Position)
    (hw : g.whiteKingPosition.isSome = true)
    (hb : g.blackKingPosition.isSome = true) :
    ((g.handleCastling king f t).isOk = true ↔
      (castlingP1 king && castlingP2 g f t && castlingP3 g f t &&
        castlingP4 g && castlingP5 g f t) = true) ∧
    (∀ e, g.handleCastling king f t = Except.error e →
      e = (if castlingP1 king = false then
             "Invalid castling = not first King move"
           else if castlingP2 g f t = false then
             "Invalid castling = not first Rook move"
           else if castlingP3 g f t = false then
             "Invalid castling = blocked by piece"
           else if castlingP4 g = false then
             "Invalid castling = King in check"
           else "Invalid castling = blocked by attack")) := by
  by_cases h1 : castlingP1 king = true
  case neg =>
    have h1f : castlingP1 king = false := by simpa using h1
    have h1' : king.history.length > 0 :=
      Nat.pos_of_ne_zero (of_decide_eq_false h1f)
    have he : g.handleCastling king f t =
        Except.error "Invalid castling = not first King move" := by
      unfold Chesspirito.handleCastling
      rw [if_pos h1']
    constructor
    · simp [he, Except.isOk, Except.toBool, h1f]
    · intro e hee
      rw [he] at hee
      injection hee with h2
      rw [← h2]
      simp [h1f]
  case pos =>
    have h1' : ¬(king.history.length > 0) := by
      have hz : king.history.length = 0 := of_decide_eq_true h1
      omega
    by_cases h2 : castlingP2 g f t = true
    case neg =>
      have h2f : castlingP2 g f t = false := by simpa using h2
      have he : g.handleCastling king f t =
          Except.error "Invalid castling = not first Rook move" := by
        unfold Chesspirito.handleCastling
        rw [if_neg h1']
        have h2x := h2f
        unfold castlingP2 at h2x
        split
        · rfl
        · next rook hrk =>
          rw [hrk] at h2x
          simp only [] at h2x
          rw [if_pos (Nat.pos_of_ne_zero (of_decide_eq_false h2x))]
      constructor
      · simp [he, Except.isOk, Except.toBool, h2f]
      · intro e hee
        rw [he] at hee
        injection hee with hes
        rw [← hes]
        simp [h1, h2f]
    case pos =>
      by_cases h3 : castlingP3 g f t = true
      case neg =>
        have h3f : castlingP3 g f t = false := by simpa using h3
        have he : g.handleCastling king f t =
            Except.error "Invalid castling = blocked by piece" := by
          unfold Chesspirito.handleCastling
          rw [if_neg h1']
          have h2x := h2
          unfold castlingP2 at h2x
          split
          · next hrk =>
            rw [hrk] at h2x
            simp at h2x
          · next rook hrk =>
            rw [hrk] at h2x
            simp only [] at h2x
            rw [if_neg (by have hz := of_decide_eq_true h2x; omega :
              ¬(rook.history.length > 0))]
            have h3x := h3f
            unfold castlingP3 at h3x
            rw [if_pos (by simp [h3x])]
        constructor
        · simp [he, Except.isOk, Except.toBool, h3f]
        · intro e hee
          rw [he] at hee
          injection hee with hes
          rw [← hes]
          simp [h1, h2, h3f]
      case pos =>
        have hic : g.inCheck? g.playingColor =
            Except.ok (inCheckB g g.playingColor) :=
          inCheck?_eq_ok g g.playingColor
            (getKingPosition?_isSome g g.playingColor hw hb)
        by_cases h4 : castlingP4 g = true
        case neg =>
          have h4f : castlingP4 g = false := by simpa using h4
          have h4x : inCheckB g g.playingColor = true := by
            have := h4f
            unfold castlingP4 at this
            simpa using this
          have he : g.handleCastling king f t =
              Except.error "Invalid castling = King in check" := by
            unfold Chesspirito.handleCastling
            rw [if_neg h1']
            have h2x := h2
            unfold castlingP2 at h2x
            split
            · next hrk =>
              rw [hrk] at h2x
              simp at h2x
            · next rook hrk =>
              rw [hrk] at h2x
              simp only [] at h2x
              rw [if_neg (by have hz := of_decide_eq_true h2x; omega :
                ¬(rook.history.length > 0))]
              have h3x := h3
              unfold castlingP3 at h3x
              rw [if_neg (by simp [h3x])]
              rw [hic]
              simp only []
              rw [if_pos h4x]
          constructor
          · simp [he, Except.isOk, Except.toBool, h4f]
          · intro e hee
            rw [he] at hee
            injection hee with hes
            rw [← hes]
            simp [h1, h2, h3, h4f]
        case pos =>
          have h4x : inCheckB g g.playingColor = false := by
            have := h4
            unfold castlingP4 at this
            simpa using this
          by_cases h5 : castlingP5 g f t = true
          case neg =>
            have h5f : castlingP5 g f t = false := by simpa using h5
            have h5x : ((castlingEmptyRequired g f t).take 2).any
                (fun target => g.isSquareAttacked
                  (getOppositeColor g.playingColor) target) = true := by
              have := h5f
              unfold castlingP5 at this
              simpa using this
            have he : g.handleCastling king f t =
                Except.error "Invalid castling = blocked by attack" := by
              unfold Chesspirito.handleCastling
              rw [if_neg h1']
              have h2x := h2
              unfold castlingP2 at h2x
              split
              · next hrk =>
                rw [hrk] at h2x
                simp at h2x
              · next rook hrk =>
                rw [hrk] at h2x
                simp only [] at h2x
                rw [if_neg (by have hz := of_decide_eq_true h2x; omega :
                  ¬(rook.history.length > 0))]
                have h3x := h3
                unfold castlingP3 at h3x
                rw [if_neg (by simp [h3x])]
                rw [hic]
                simp only []
                rw [if_neg (by simp [h4x])]
                rw [if_pos h5x]
            constructor
            · simp [he, Except.isOk, Except.toBool, h5f]
            · intro e hee
              rw [he] at hee
              injection hee with hes
              rw [← hes]
              simp [h1, h2, h3, h4, h5f]
          case pos =>
            have h5x : ((castlingEmptyRequired g f t).take 2).any
                (fun target => g.isSquareAttacked
                  (getOppositeColor g.playingColor) target) = false := by
              have := h5
              unfold castlingP5 at this
              simpa using this
            have he : ∃ gres, g.handleCastling king f t = Except.ok gres := by
              unfold Chesspirito.handleCastling
              rw [if_neg h1']
              have h2x := h2
              unfold castlingP2 at h2x
              split
              · next hrk =>
                rw [hrk] at h2x
                simp at h2x
              · next rook hrk =>
                rw [hrk] at h2x
                simp only [] at h2x
                rw [if_neg (by have hz := of_decide_eq_true h2x; omega :
                  ¬(rook.history.length > 0))]
                have h3x := h3
                unfold castlingP3 at h3x
                rw [if_neg (by simp [h3x])]
                rw [hic]
                simp only []
                rw [if_neg (by simp [h4x])]
                rw [if_neg (by simp [h5x])]
                have hg1w : ((((g.setSquare t (some king)).setSquare f
                    none).setSquare (castlingRookTo g f t)
                    (some rook)).setSquare (castlingRookFrom g f t)
                    none).whiteKingPosition.isSome = true :=
                  setSquare_wkp_isSome _ _ _ (setSquare_wkp_isSome _ _ _
                    (setSquare_wkp_isSome _ _ _ (setSquare_wkp_isSome _ _ _ hw)))
                have hg1b : ((((g.setSquare t (some king)).setSquare f
                    none).setSquare (castlingRookTo g f t)
                    (some rook)).setSquare (castlingRookFrom g f t)
                    none).blackKingPosition.isSome = true :=
                  setSquare_bkp_isSome _ _ _ (setSquare_bkp_isSome _ _ _
                    (setSquare_bkp_isSome _ _ _ (setSquare_bkp_isSome _ _ _ hb)))
                have hg2 := generateLegalMoves_kp_isSome
                  ((((g.setSquare t (some king)).setSquare f
                    none).setSquare (castlingRookTo g f t)
                    (some rook)).setSquare (castlingRookFrom g f t) none)
                  (getOppositeColor g.playingColor) hg1w hg1b
                have hic2 := inCheck?_eq_ok
                  (((((g.setSquare t (some king)).setSquare f
                    none).setSquare (castlingRookTo g f t)
                    (some rook)).setSquare (castlingRookFrom g f t)
                    none).generateLegalMoves (getOppositeColor g.playingColor)).2
                  (getOppositeColor g.playingColor)
                  (getKingPosition?_isSome _ _ hg2.1 hg2.2)
                rw [hic2]
                exact ⟨_, rfl⟩
            obtain ⟨gres, hgr⟩ := he
            constructor
            · simp [hgr, Except.isOk, Except.toBool, h1, h2, h3, h4, h5]
            · intro e hee
              rw [hgr] at hee
              exact Except.noConfusion hee

/-- White Ke1 and Rh1 (proper kingside-castling material), black Ka8. -/
def fenC5b : String := "k7/8/8/8/8/8/8/1111K11R w"

def gameC5b : Chesspirito := getOk (Chesspirito.construct fenC5b)

def kingC5b : ChessPiece := ⟨Piece.WHITE_KING, Color.w, ⟨4, 7⟩, []⟩

theorem handleCastling_characterization_witness :
    gameC5b.whiteKingPosition.isSome = true ∧
    gameC5b.blackKingPosition.isSome = true ∧
    ((gameC5b.handleCastling kingC5b ⟨4, 7⟩ ⟨6, 7⟩).isOk = true ↔
      (castlingP1 kingC5b && castlingP2 gameC5b ⟨4, 7⟩ ⟨6, 7⟩ &&
        castlingP3 gameC5b ⟨4, 7⟩ ⟨6, 7⟩ && castlingP4 gameC5b &&
        castlingP5 gameC5b ⟨4, 7⟩ ⟨6, 7⟩) = true) :=
  ⟨by decide, by decide,
    (handleCastling_characterization gameC5b kingC5b ⟨4, 7⟩ ⟨6, 7⟩
      (by decide) (by decide)).1⟩

/-! ### C7: promotion places the chosen piece -/

/-- The recorded en-passant target, when present, is in bounds (holds for
every state the engine actually produces; stated as an explicit hypothesis
below). -/
def epWF (g : Chesspirito) : Bool :=
  match g.enPassantable with
  | some ep => !isPositionOutOfBounds ep
  | none => true

theorem isPawnType_not_king (ty : Piece) (h : isPawnType ty = true) :
    isKingType ty = false := by
  cases ty <;> first | rfl | exact absurd h (by decide)

theorem promotionCreate_not_king (c : Color) (promo : Promotion) (pos : Position) :
    isKingType (promotionCreate c promo pos).type = false := by
  cases promo <;> cases c <;> rfl

theorem getSquare_board_congr (g1 g2 : Chesspirito) (p : Position)
    (h : g1.board = g2.board) : g1.getSquare p = g2.getSquare p := by
  unfold Chesspirito.getSquare
  rw [h]

theorem InvP_moveCapturePhase (g : Chesspirito) (f t : Position)
    (piece : ChessPiece) (e : Bool) (hInv : InvP g) (hf : inB f) (ht : inB t)
    (hep : epWF g = true) (hking : isKingType piece.type = false) :
    InvP (moveCapturePhase g f t piece e).2 := by
  have h2 : InvP ((g.setSquare t (some piece)).setSquare f none) :=
    InvP_setSquare _ f none (InvP_setSquare g t (some piece) hInv ht hking)
      hf trivial
  unfold moveCapturePhase
  split
  · next ep heq =>
    split
    · rw [setSquare_enPassantable, setSquare_enPassantable] at heq
      have hepB : inB ep := by
        unfold epWF at hep
        rw [heq] at hep
        simpa [inB] using hep
      exact InvP_setSquare _ ep none h2 hepB trivial
    · exact h2
  · exact h2

theorem movePawnPhase_fst_promoted (g : Chesspirito) (f t : Position)
    (promo : Promotion) (piece : ChessPiece) (att : Bool)
    (h : hasPromotedB (pawnEpPhase g f t piece att) t piece = true) :
    (movePawnPhase g f t promo piece att).1 =
      (pawnEpPhase g f t piece att).setSquare t
        (some (promotionCreate (pawnEpPhase g f t piece att).playingColor
          promo t)) := by
  unfold movePawnPhase
  rw [if_pos h]

theorem moveFinish_board_promoted (g1 : Chesspirito) (f t : Position)
    (promo : Promotion) (piece : ChessPiece) (e : Bool) (cap : Square)
    (hInv : InvP g1) :
    (moveFinish g1 f t promo piece e cap true).board = g1.board := by
  unfold moveFinish
  rw [handleNextTurn_board]
  show (moveFinishBoardState g1 f t piece true).board = g1.board
  unfold moveFinishBoardState moveFinishCheckState
  rw [if_pos rfl]
  rw [generateLegalMoves_restore g1 _ hInv]

/-- Core of C7/C8: a successful pawn move into the last rank stores the
freshly created promotion piece at the destination square. -/
theorem move_promotes (g : Chesspirito) (f t : Position) (promo : Promotion)
    (g' : Chesspirito) (piece : ChessPiece)
    (hInv : InvP g) (hf : inB f) (ht : inB t) (hep : epWF g = true)
    (hpiece : g.getSquare f = some piece)
    (hpawn : isPawnType piece.type = true)
    (hlast : t.y = (if g.playingColor = Color.w then (0 : Int) else 7))
    (hmove : g.move f t promo = Except.ok g') :
    g'.getSquare t = some (promotionCreate g.playingColor promo t) := by
  have hking : isKingType piece.type = false := isPawnType_not_king piece.type hpawn
  have hshape : (isKingType piece.type && decide (f.y = t.y) &&
      decide ((t.x - f.x).natAbs = 2)) = false := by simp [hking]
  obtain ⟨matched, hfind, hg'⟩ := move_ok_inv g f t promo g' piece hmove hpiece hshape
  have hInvC : InvP (moveCapturePhase g f t piece matched.enPassant).2 :=
    InvP_moveCapturePhase g f t piece matched.enPassant hInv hf ht hep hking
  have hInvE : InvP (pawnEpPhase (moveCapturePhase g f t piece matched.enPassant).2
      f t piece ((g.getSquare t).isSome)) :=
    InvP_update_misc _ _ (pawnEpPhase_board _ _ _ _ _) (pawnEpPhase_wkp _ _ _ _ _)
      (pawnEpPhase_bkp _ _ _ _ _) hInvC
  have hpcE : (pawnEpPhase (moveCapturePhase g f t piece matched.enPassant).2
      f t piece ((g.getSquare t).isSome)).playingColor = g.playingColor := by
    rw [pawnEpPhase_pc, moveCapturePhase_pc]
  have hP : hasPromotedB (pawnEpPhase (moveCapturePhase g f t piece
      matched.enPassant).2 f t piece ((g.getSquare t).isSome)) t piece = true := by
    unfold hasPromotedB
    rw [hpcE]
    simp [hpawn, hlast]
  have hg1 := movePawnPhase_fst_promoted
    (moveCapturePhase g f t piece matched.enPassant).2 f t promo piece
    ((g.getSquare t).isSome) hP
  have hsnd : (movePawnPhase (moveCapturePhase g f t piece matched.enPassant).2
      f t promo piece ((g.getSquare t).isSome)).2 = true := hP
  have hInv1 : InvP ((pawnEpPhase (moveCapturePhase g f t piece
      matched.enPassant).2 f t piece ((g.getSquare t).isSome)).setSquare t
      (some (promotionCreate (pawnEpPhase (moveCapturePhase g f t piece
        matched.enPassant).2 f t piece
        ((g.getSquare t).isSome)).playingColor promo t))) :=
    InvP_setSquare _ t _ hInvE ht (promotionCreate_not_king _ _ _)
  rw [hg']
  unfold moveApplied
  rw [hsnd, hg1]
  have hb := moveFinish_board_promoted _ f t promo piece matched.enPassant
    (moveCapturePhase g f t piece matched.enPassant).1 hInv1
  rw [getSquare_board_congr _ _ t hb]
  rw [getSquare_setSquare_self _ _ _ hInvE.1 ht]
  rw [hpcE]
  rfl

/-- C7: for every legal pawn move into the far rank for the mover's color,
the pawn is replaced at the destination square by a freshly created piece of
the caller-selected kind (`promotionCreate`), the parameterless overload
(`moveDefault`) yields the same with kind "Q", and that default-created
piece is a queen of the moving color. -/
theorem promotion_places_chosen_piece (g : Chesspirito) (f t : Position)
    (promo : Promotion) (g' : Chesspirito) (piece : ChessPiece)
    (hInv : InvB g = true) (hf : inB f) (ht : inB t) (hep : epWF g = true)
    (hpiece : g.getSquare f = some piece)
    (hpawn : isPawnType piece.type = true)
    (hlast : t.y = (if g.playingColor = Color.w then (0 : Int) else 7))
    (hmove : g.move f t promo = Except.ok g') :
    g'.getSquare t = some (promotionCreate g.playingColor promo t) ∧
    (∀ g'', g.moveDefault f t = Except.ok g'' →
      g''.getSquare t = some (promotionCreate g.playingColor Promotion.Q t)) ∧
    (promotionCreate g.playingColor Promotion.Q t).type =
      (if g.playingColor = Color.w then Piece.WHITE_QUEEN
       else Piece.BLACK_QUEEN) := by
  refine ⟨move_promotes g f t promo g' piece ((InvB_iff g).mp hInv) hf ht hep
      hpiece hpawn hlast hmove,
    fun g'' hm => move_promotes g f t Promotion.Q g'' piece
      ((InvB_iff g).mp hInv) hf ht hep hpiece hpawn hlast hm, ?_⟩
  cases hc : g.playingColor <;> simp [promotionCreate, hc]

def pawnC7 : ChessPiece := ⟨Piece.WHITE_PAWN, Color.w, ⟨0, 1⟩, []⟩

/-- The promotion scenario executed with an explicit knight choice. -/
def gameC7n : Chesspirito := getOk (gameC7.move ⟨0, 1⟩ ⟨0, 0⟩ Promotion.N)

theorem promotion_places_chosen_piece_witness :
    InvB gameC7 = true ∧ epWF gameC7 = true ∧
    gameC7.getSquare ⟨0, 1⟩ = some pawnC7 ∧
    isPawnType pawnC7.type = true ∧
    gameC7.move ⟨0, 1⟩ ⟨0, 0⟩ Promotion.N = Except.ok gameC7n ∧
    gameC7n.getSquare ⟨0, 0⟩ =
      some (promotionCreate gameC7.playingColor Promotion.N ⟨0, 0⟩) :=
  ⟨by decide, by decide, by decide, by decide, by rfl,
    (promotion_places_chosen_piece gameC7 ⟨0, 1⟩ ⟨0, 0⟩ Promotion.N gameC7n
      pawnC7 (by decide) (by rfl) (by rfl) (by decide) (by decide)
      (by decide) (by decide) (by rfl)).1⟩

/-! ### C8: the history entry's promotion field -/

theorem promotionCreate_not_pawn (c : Color) (promo : Promotion) (pos : Position) :
    isPawnType (promotionCreate c promo pos).type = false := by
  cases promo <;> cases c <;> rfl

theorem moveFinish_hist (g1 : Chesspirito) (f t : Position) (promo : Promotion)
    (piece : ChessPiece) (e : Bool) (cap : Square) (hp : Bool) :
    (moveFinish g1 f t promo piece e cap hp).history =
      (moveFinishBoardState g1 f t piece hp).history ++
        [moveEntry g1 f t promo piece e cap hp] := by
  unfold moveFinish
  rw [handleNextTurn_history]

theorem moveFinishBoardState_hist (g1 : Chesspirito) (f t : Position)
    (piece : ChessPiece) (hp : Bool) :
    (moveFinishBoardState g1 f t piece hp).history = g1.history := by
  unfold moveFinishBoardState moveFinishCheckState
  cases hp with
  | true =>
    rw [if_pos rfl]
    show (g1.generateLegalMoves (getOppositeColor g1.playingColor)).2.history =
      g1.history
    exact generateLegalMoves_frame_hist g1 _
  | false =>
    rw [if_neg (by simp)]
    rw [setSquare_history]
    show (g1.generateLegalMoves (getOppositeColor g1.playingColor)).2.history =
      g1.history
    exact generateLegalMoves_frame_hist g1 _

/-- C8 (corrected: the spec says the recorded `promotion` field references
the NEW piece placed at the destination; the code pushes the OLD pawn object
— after its in-place position/history update — so the field is the moved
pawn, distinct from the piece actually standing on the board): every applied
promotion move appends one history entry whose `promotion` field is the
pushed pawn `pushedPiece piece f t`, which differs from the freshly created
piece `promotionCreate` found at the destination square. -/
theorem history_promotion_is_moved_pawn (g : Chesspirito) (f t : Position)
    (promo : Promotion) (g' : Chesspirito) (piece : ChessPiece)
    (hInv : InvB g = true) (hf : inB f) (ht : inB t) (hep : epWF g = true)
    (hpiece : g.getSquare f = some piece)
    (hpawn : isPawnType piece.type = true)
    (hlast : t.y = (if g.playingColor = Color.w then (0 : Int) else 7))
    (hmove : g.move f t promo = Except.ok g') :
    (∃ entry, g'.history = g.history ++ [entry] ∧
      entry.promotion = some (pushedPiece piece f t) ∧
      entry.promotion ≠ some (promotionCreate g.playingColor promo t)) ∧
    g'.getSquare t = some (promotionCreate g.playingColor promo t) := by
  have hInvP : InvP g := (InvB_iff g).mp hInv
  have hking : isKingType piece.type = false := isPawnType_not_king piece.type hpawn
  have hshape : (isKingType piece.type && decide (f.y = t.y) &&
      decide ((t.x - f.x).natAbs = 2)) = false := by simp [hking]
  obtain ⟨matched, hfind, hg'⟩ := move_ok_inv g f t promo g' piece hmove hpiece hshape
  have hpcE : (pawnEpPhase (moveCapturePhase g f t piece matched.enPassant).2
      f t piece ((g.getSquare t).isSome)).playingColor = g.playingColor := by
    rw [pawnEpPhase_pc, moveCapturePhase_pc]
  have hP : hasPromotedB (pawnEpPhase (moveCapturePhase g f t piece
      matched.enPassant).2 f t piece ((g.getSquare t).isSome)) t piece = true := by
    unfold hasPromotedB
    rw [hpcE]
    simp [hpawn, hlast]
  have hg1 := movePawnPhase_fst_promoted
    (moveCapturePhase g f t piece matched.enPassant).2 f t promo piece
    ((g.getSquare t).isSome) hP
  have hsnd : (movePawnPhase (moveCapturePhase g f t piece matched.enPassant).2
      f t promo piece ((g.getSquare t).isSome)).2 = true := hP
  have hg'2 : g' = moveFinish
      ((pawnEpPhase (moveCapturePhase g f t piece matched.enPassant).2 f t piece
        ((g.getSquare t).isSome)).setSquare t
        (some (promotionCreate (pawnEpPhase (moveCapturePhase g f t piece
          matched.enPassant).2 f t piece
          ((g.getSquare t).isSome)).playingColor promo t)))
      f t promo piece matched.enPassant
      (moveCapturePhase g f t piece matched.enPassant).1 true := by
    rw [hg']
    show moveApplied g f t promo piece matched.enPassant = _
    unfold moveApplied
    rw [hsnd, hg1]
  refine ⟨⟨moveEntry
      ((pawnEpPhase (moveCapturePhase g f t piece matched.enPassant).2 f t piece
        ((g.getSquare t).isSome)).setSquare t
        (some (promotionCreate (pawnEpPhase (moveCapturePhase g f t piece
          matched.enPassant).2 f t piece
          ((g.getSquare t).isSome)).playingColor promo t)))
      f t promo piece matched.enPassant
      (moveCapturePhase g f t piece matched.enPassant).1 true, ?_, rfl, ?_⟩,
    move_promotes g f t promo g' piece hInvP hf ht hep
      hpiece hpawn hlast hmove⟩
  · rw [hg'2, moveFinish_hist, moveFinishBoardState_hist, setSquare_history,
      pawnEpPhase_hist, moveCapturePhase_hist]
  · intro hcontra
    have h2 : pushedPiece piece f t = promotionCreate g.playingColor promo t := by
      have hcontra2 : some (pushedPiece piece f t) =
          some (promotionCreate g.playingColor promo t) := hcontra
      injection hcontra2
    have h3 := congrArg ChessPiece.type h2
    rw [show (pushedPiece piece f t).type = piece.type from rfl] at h3
    have hq := promotionCreate_not_pawn g.playingColor promo t
    rw [← h3] at hq
    rw [hpawn] at hq
    exact Bool.noConfusion hq

theorem history_promotion_is_moved_pawn_witness :
    InvB gameC7 = true ∧ epWF gameC7 = true ∧
    gameC7.getSquare ⟨0, 1⟩ = some pawnC7 ∧
    gameC7.move ⟨0, 1⟩ ⟨0, 0⟩ Promotion.Q = Except.ok gameC7q ∧
    (∃ entry, gameC7q.history = gameC7.history ++ [entry] ∧
      entry.promotion = some (pushedPiece pawnC7 ⟨0, 1⟩ ⟨0, 0⟩)) := by
  refine ⟨by decide, by decide, by decide, by rfl, ?_⟩
  have h := history_promotion_is_moved_pawn gameC7 ⟨0, 1⟩ ⟨0, 0⟩ Promotion.Q
    gameC7q pawnC7 (by decide) (by rfl) (by rfl) (by decide) (by decide)
    (by decide) (by decide) (by rfl)
  obtain ⟨⟨entry, h1, h2, h3⟩, hb⟩ := h
  exact ⟨entry, h1, h2⟩

/-! ### C6: en-passant capture and its undo -/

theorem handleNextTurn_wkp (g : Chesspirito) (m d : Bool) (n : List Move) :
    (g.handleNextTurn m d n).whiteKingPosition = g.whiteKingPosition := by
  unfold Chesspirito.handleNextTurn Chesspirito.togglePlayingColor
  cases m <;> cases d <;> rfl

theorem handleNextTurn_bkp (g : Chesspirito) (m d : Bool) (n : List Move) :
    (g.handleNextTurn m d n).blackKingPosition = g.blackKingPosition := by
  unfold Chesspirito.handleNextTurn Chesspirito.togglePlayingColor
  cases m <;> cases d <;> rfl

theorem isSamePosition_false_of_ne (a b : Position) (h : a ≠ b) :
    isSamePosition a b = false := by
  cases a with
  | mk ax ay =>
    cases b with
    | mk bx bc =>
      simp only [isSamePosition]
      by_cases h1 : ax = bx
      · by_cases h2 : ay = bc
        · exact absurd (by rw [h1, h2]) h
        · simp [h1, h2]
      · simp [h1]

theorem movePawnPhase_fst_not_promoted (g : Chesspirito) (f t : Position)
    (promo : Promotion) (piece : ChessPiece) (att : Bool)
    (h : hasPromotedB (pawnEpPhase g f t piece att) t piece = false) :
    (movePawnPhase g f t promo piece att).1 = pawnEpPhase g f t piece att := by
  unfold movePawnPhase
  rw [if_neg (by simp [h])]

theorem moveFinish_board_not_promoted (g1 : Chesspirito) (f t : Position)
    (promo : Promotion) (piece : ChessPiece) (e : Bool) (cap : Square)
    (hInv : InvP g1) :
    (moveFinish g1 f t promo piece e cap false).board =
      (g1.setSquare t (some (pushedPiece piece f t))).board := by
  unfold moveFinish
  rw [handleNextTurn_board]
  show (moveFinishBoardState g1 f t piece false).board = _
  unfold moveFinishBoardState moveFinishCheckState
  rw [if_neg (by simp)]
  rw [setSquare_board, setSquare_board]
  rw [generateLegalMoves_restore g1 _ hInv]

theorem InvP_moveFinish (g1 : Chesspirito) (f t : Position) (promo : Promotion)
    (piece : ChessPiece) (e : Bool) (cap : Square) (hp : Bool)
    (hInv : InvP g1) (ht : inB t) (hking : isKingType piece.type = false) :
    InvP (moveFinish g1 f t promo piece e cap hp) := by
  have hcs : InvP (moveFinishCheckState g1) := by
    unfold moveFinishCheckState
    refine InvP_update_misc g1 _ ?_ ?_ ?_ hInv
    · show (g1.generateLegalMoves (getOppositeColor g1.playingColor)).2.board =
        g1.board
      rw [generateLegalMoves_restore g1 _ hInv]
    · show (g1.generateLegalMoves
        (getOppositeColor g1.playingColor)).2.whiteKingPosition =
        g1.whiteKingPosition
      rw [generateLegalMoves_restore g1 _ hInv]
    · show (g1.generateLegalMoves
        (getOppositeColor g1.playingColor)).2.blackKingPosition =
        g1.blackKingPosition
      rw [generateLegalMoves_restore g1 _ hInv]
  have hbs : InvP (moveFinishBoardState g1 f t piece hp) := by
    unfold moveFinishBoardState
    cases hp with
    | true =>
      rw [if_pos rfl]
      exact hcs
    | false =>
      rw [if_neg (by simp)]
      exact InvP_setSquare _ t _ hcs ht hking
  unfold moveFinish
  exact InvP_update_misc _ _ (handleNextTurn_board _ _ _ _)
    (handleNextTurn_wkp _ _ _ _) (handleNextTurn_bkp _ _ _ _)
    (InvP_update_misc _ _ rfl rfl rfl hbs)

/-- The tail of `undo()` after the castling dispatch: optional color toggle,
check recomputation, `gameOver` reset and the legal-move regeneration. -/
def undoFinish (g : Chesspirito) : Chesspirito :=
  let g1 := if g.gameOver.isSome then g else g.togglePlayingColor
  let g2 := { g1 with
    check := if inCheckB g1 g1.playingColor then some g1.playingColor else none }
  let g3 := { g2 with gameOver := none }
  let res := g3.generateLegalMoves g3.playingColor
  { res.2 with currLegalMoves := res.1 }

theorem undoFinish_board (g : Chesspirito) (hInv : InvP g) :
    (undoFinish g).board = g.board := by
  have h1 : InvP (if g.gameOver.isSome = true then g else g.togglePlayingColor) := by
    split
    · exact hInv
    · exact InvP_update_misc _ _ rfl rfl rfl hInv
  have h3 : InvP { { (if g.gameOver.isSome = true then g
      else g.togglePlayingColor) with
      check := if inCheckB (if g.gameOver.isSome = true then g
          else g.togglePlayingColor)
          (if g.gameOver.isSome = true then g
          else g.togglePlayingColor).playingColor then
        some (if g.gameOver.isSome = true then g
          else g.togglePlayingColor).playingColor
      else none } with gameOver := none } :=
    InvP_update_misc _ _ rfl rfl rfl (InvP_update_misc _ _ rfl rfl rfl h1)
  unfold undoFinish
  simp only []
  rw [generateLegalMoves_restore _ _ h3]
  show (if g.gameOver.isSome = true then g else g.togglePlayingColor).board = g.board
  split
  · rfl
  · rfl

/-- `undo()` after a non-castling capture whose victim stood on its own
square `ep` (≠ the move's destination): the victim is restored at `ep` and
the destination is cleared. -/
theorem undo_ep_restore (gp gpp : Chesspirito) (f t ep : Position)
    (entry : HistoryMove) (victim moved0 : ChessPiece)
    (hInv : InvP gp) (hf : inB f) (ht : inB t) (hepB : inB ep) (hept : ep ≠ t)
    (hlast : gp.history.getLast? = some entry)
    (hto : entry.to' = t) (hfrom : entry.from' = f)
    (hpromo : entry.promotion = none) (hcap : entry.capture = some victim)
    (hcast : entry.castling = none) (hvpos : victim.position = ep)
    (hvking : isKingType victim.type = false)
    (hmoved : gp.getSquare t = some moved0)
    (hmking : isKingType moved0.type = false)
    (hundo : gp.undo = Except.ok gpp) :
    gpp.getSquare ep = some victim ∧ gpp.getSquare t = none := by
  unfold Chesspirito.undo at hundo
  rw [hlast] at hundo
  simp only [] at hundo
  rw [hto, hfrom, hpromo, hcap, hcast] at hundo
  have hgd : ({ gp with history := gp.history.dropLast } :
      Chesspirito).getSquare t = some moved0 := hmoved
  rw [hgd] at hundo
  simp only [] at hundo
  rw [hvpos] at hundo
  have hspn : ¬(isSamePosition t ep = true) := by
    rw [isSamePosition_false_of_ne t ep (fun hh => hept hh.symm)]
    simp
  rw [if_neg hspn] at hundo
  simp only [] at hundo
  have h2 := match_inCheck_ok _ _ _ _ hundo
  have hInvD : InvP ({ gp with history := gp.history.dropLast } : Chesspirito) :=
    InvP_update_misc gp _ rfl rfl rfl hInv
  have hInv1 : InvP (({ gp with history := gp.history.dropLast } :
      Chesspirito).setSquare f
      (some { moved0 with history := moved0.history.dropLast })) :=
    InvP_setSquare _ f _ hInvD hf hmking
  have hInv2 : InvP ((({ gp with history := gp.history.dropLast } :
      Chesspirito).setSquare f
      (some { moved0 with history := moved0.history.dropLast })).setSquare ep
      (some victim)) :=
    InvP_setSquare _ ep _ hInv1 hepB hvking
  have hInv3 : InvP (((({ gp with history := gp.history.dropLast } :
      Chesspirito).setSquare f
      (some { moved0 with history := moved0.history.dropLast })).setSquare ep
      (some victim)).setSquare t none) :=
    InvP_setSquare _ t none hInv2 ht trivial
  have hInv4 : InvP { ((({ gp with history := gp.history.dropLast } :
      Chesspirito).setSquare f
      (some { moved0 with history := moved0.history.dropLast })).setSquare ep
      (some victim)).setSquare t none with enPassantable := some ep } :=
    InvP_update_misc _ _ rfl rfl rfl hInv3
  have h3 : gpp = undoFinish { ((({ gp with history := gp.history.dropLast } :
      Chesspirito).setSquare f
      (some { moved0 with history := moved0.history.dropLast })).setSquare ep
      (some victim)).setSquare t none with enPassantable := some ep } := by
    rw [h2]
    rfl
  have hb2 : (undoFinish { ((({ gp with history := gp.history.dropLast } :
      Chesspirito).setSquare f
      (some { moved0 with history := moved0.history.dropLast })).setSquare ep
      (some victim)).setSquare t none with enPassantable := some ep }).board = ((((({ gp with history := gp.history.dropLast } :
      Chesspirito).setSquare f
      (some { moved0 with history := moved0.history.dropLast })).setSquare ep
      (some victim)).setSquare t none) : Chesspirito).board := by
    rw [undoFinish_board _ hInv4]
  constructor
  · rw [h3, getSquare_board_congr _ _ ep hb2]
    rw [getSquare_setSquare_ne _ t ep none ht hepB (fun hh => hept hh.symm)]
    rw [getSquare_setSquare_self _ ep _ hInv1.1 hepB]
    rw [← hvpos]
    rfl
  · rw [h3, getSquare_board_congr _ _ t hb2]
    rw [getSquare_setSquare_self _ t none hInv2.1 ht]
    rfl

/-- The `move()` side of an en-passant capture: the victim disappears from
its own square `ep`, the capturer lands on `t`, and the appended history
entry records the victim as the capture. -/
theorem move_ep_capture (g : Chesspirito) (f t ep : Position) (promo : Promotion)
    (g' : Chesspirito) (piece victim : ChessPiece) (mv : Move)
    (hInv : InvP g) (hf : inB f) (ht : inB t) (hepB : inB ep)
    (hept : ep ≠ t) (hepf : ep ≠ f)
    (hpiece : g.getSquare f = some piece)
    (hpawn : isPawnType piece.type = true)
    (hepS : g.enPassantable = some ep)
    (hvic : g.getSquare ep = some victim)
    (htEmpty : g.getSquare t = none)
    (hfind : g.currLegalMoves.find?
      (fun m => isSamePosition m.from' f && isSamePosition m.to' t) = some mv)
    (hflag : mv.enPassant = true)
    (hdy : ¬((t.y - f.y).natAbs = 2))
    (hnolast : ¬(t.y = (if g.playingColor = Color.w then (0 : Int) else 7)))
    (hmove : g.move f t promo = Except.ok g') :
    g'.getSquare ep = none ∧
    g'.getSquare t = some (pushedPiece piece f t) ∧
    InvP g' ∧
    (∃ entry, g'.history = g.history ++ [entry] ∧ entry.to' = t ∧
      entry.from' = f ∧ entry.promotion = none ∧ entry.capture = some victim ∧
      entry.castling = none) := by
  have hking : isKingType piece.type = false := isPawnType_not_king piece.type hpawn
  have hshape : (isKingType piece.type && decide (f.y = t.y) &&
      decide ((t.x - f.x).natAbs = 2)) = false := by simp [hking]
  obtain ⟨matched, hfind2, hg'⟩ := move_ok_inv g f t promo g' piece hmove hpiece hshape
  have hmeq : matched = mv := Option.some.inj (hfind2.symm.trans hfind)
  subst hmeq
  have hcp : moveCapturePhase g f t piece true =
      (g.getSquare ep, (((g.setSquare t (some piece)).setSquare f none).setSquare ep none)) := by
    unfold moveCapturePhase
    rw [show (((g.setSquare t (some piece)).setSquare f none) :
      Chesspirito).enPassantable = g.enPassantable from by
      rw [setSquare_enPassantable, setSquare_enPassantable]]
    rw [hepS]
    simp only []
    rw [getSquare_setSquare_ne _ f ep none hf hepB (fun hh => hepf hh.symm),
        getSquare_setSquare_ne _ t ep (some piece) ht hepB (fun hh => hept hh.symm)]
    rw [if_pos trivial]
  have hfst : (moveCapturePhase g f t piece true).1 = some victim := by
    rw [hcp]
    exact hvic
  have hsnd2 : (moveCapturePhase g f t piece true).2 = (((g.setSquare t (some piece)).setSquare f none).setSquare ep none) := by
    rw [hcp]
  have hdec2 : decide ((t.y - f.y).natAbs = 2) = false := decide_eq_false hdy
  have hpe : pawnEpPhase (((g.setSquare t (some piece)).setSquare f none).setSquare ep none) f t piece ((g.getSquare t).isSome) = ({ ((g.setSquare t (some piece)).setSquare f none).setSquare ep none with
      enPassantable := none } : Chesspirito) := by
    unfold pawnEpPhase
    rw [if_pos hpawn]
    rw [if_neg (by simp [hdec2])]
  have hpc3 : ((((g.setSquare t (some piece)).setSquare f none).setSquare ep none) : Chesspirito).playingColor = g.playingColor := by
    rw [setSquare_playingColor, setSquare_playingColor, setSquare_playingColor]
  have hpc4 : (({ ((g.setSquare t (some piece)).setSquare f none).setSquare ep none with
      enPassantable := none } : Chesspirito) : Chesspirito).playingColor = g.playingColor := hpc3
  have hnp : hasPromotedB (pawnEpPhase (((g.setSquare t (some piece)).setSquare f none).setSquare ep none) f t piece
      ((g.getSquare t).isSome)) t piece = false := by
    rw [hpe]
    unfold hasPromotedB
    rw [hpc4]
    simp [decide_eq_false hnolast]
  rw [hflag] at hg'
  unfold moveApplied at hg'
  rw [hsnd2, hfst] at hg'
  rw [movePawnPhase_fst_not_promoted _ _ _ _ _ _ hnp] at hg'
  have hsnd3 : (movePawnPhase (((g.setSquare t (some piece)).setSquare f none).setSquare ep none) f t promo piece
      ((g.getSquare t).isSome)).2 = false := hnp
  rw [hsnd3] at hg'
  rw [hpe] at hg'
  have hInvA : InvP (g.setSquare t (some piece)) :=
    InvP_setSquare g t (some piece) hInv ht hking
  have hInvB2 : InvP ((g.setSquare t (some piece)).setSquare f none) :=
    InvP_setSquare _ f none hInvA hf trivial
  have hInvGc : InvP (((g.setSquare t (some piece)).setSquare f none).setSquare ep none) :=
    InvP_setSquare _ ep none hInvB2 hepB trivial
  have hInvG1 : InvP ({ ((g.setSquare t (some piece)).setSquare f none).setSquare ep none with
      enPassantable := none } : Chesspirito) :=
    InvP_update_misc _ _ rfl rfl rfl hInvGc
  have hInvG' : InvP g' := by
    rw [hg']
    exact InvP_moveFinish _ f t promo piece true (some victim) false hInvG1 ht hking
  have hbG : g'.board = (({ ((g.setSquare t (some piece)).setSquare f none).setSquare ep none with
      enPassantable := none } : Chesspirito).setSquare t
      (some (pushedPiece piece f t))).board := by
    rw [hg']
    exact moveFinish_board_not_promoted _ f t promo piece true (some victim) hInvG1
  refine ⟨?_, ?_, hInvG', ?_⟩
  · rw [getSquare_board_congr g' (({ ((g.setSquare t (some piece)).setSquare f none).setSquare ep none with
      enPassantable := none } : Chesspirito).setSquare t
      (some (pushedPiece piece f t))) ep hbG]
    rw [getSquare_setSquare_ne _ t ep _ ht hepB (fun hh => hept hh.symm)]
    rw [getSquare_board_congr ({ ((g.setSquare t (some piece)).setSquare f none).setSquare ep none with
      enPassantable := none } : Chesspirito) (((g.setSquare t (some piece)).setSquare f none).setSquare ep none) ep rfl]
    rw [getSquare_setSquare_self _ ep none hInvB2.1 hepB]
    rfl
  · rw [getSquare_board_congr g' (({ ((g.setSquare t (some piece)).setSquare f none).setSquare ep none with
      enPassantable := none } : Chesspirito).setSquare t
      (some (pushedPiece piece f t))) t hbG]
    rw [getSquare_setSquare_self _ t _ hInvG1.1 ht]
    rfl
  · refine ⟨moveEntry ({ ((g.setSquare t (some piece)).setSquare f none).setSquare ep none with
      enPassantable := none } : Chesspirito) f t promo piece true (some victim) false,
      ?_, rfl, rfl, rfl, rfl, rfl⟩
    rw [hg', moveFinish_hist, moveFinishBoardState_hist]
    rw [show (({ ((g.setSquare t (some piece)).setSquare f none).setSquare ep none with
      enPassantable := none } : Chesspirito) : Chesspirito).history = g.history from by
      show ((((g.setSquare t (some piece)).setSquare f none).setSquare ep none) : Chesspirito).history = g.history
      rw [setSquare_history, setSquare_history, setSquare_history]]

/-- C6: for every applied en-passant capture, the opponent's pawn is removed
from the square `ep` it itself occupies — distinct (by hypothesis `hept`)
from the capturing pawn's destination `t`, which receives the capturer — the
appended history entry records that pawn as the capture, and a subsequent
`undo()` restores the captured pawn to that same square `ep` while clearing
`t`. -/
theorem en_passant_capture_and_undo (g : Chesspirito) (f t ep : Position)
    (promo : Promotion) (g' g'' : Chesspirito) (piece victim : ChessPiece)
    (mv : Move)
    (hInv : InvB g = true) (hf : inB f) (ht : inB t) (hepB : inB ep)
    (hept : ep ≠ t) (hepf : ep ≠ f)
    (hpiece : g.getSquare f = some piece)
    (hpawn : isPawnType piece.type = true)
    (hvicPawn : isPawnType victim.type = true)
    (hepS : g.enPassantable = some ep)
    (hvic : g.getSquare ep = some victim)
    (htEmpty : g.getSquare t = none)
    (hfind : g.currLegalMoves.find?
      (fun m => isSamePosition m.from' f && isSamePosition m.to' t) = some mv)
    (hflag : mv.enPassant = true)
    (hdy : ¬((t.y - f.y).natAbs = 2))
    (hnolast : ¬(t.y = (if g.playingColor = Color.w then (0 : Int) else 7)))
    (hmove : g.move f t promo = Except.ok g')
    (hundo : g'.undo = Except.ok g'') :
    g'.getSquare ep = none ∧
    g'.getSquare t = some (pushedPiece piece f t) ∧
    (∃ entry, g'.history = g.history ++ [entry] ∧
      entry.capture = some victim) ∧
    g''.getSquare ep = some victim ∧
    g''.getSquare t = none := by
  have hInvP : InvP g := (InvB_iff g).mp hInv
  obtain ⟨h1, h2, hInvG', entry, hh, hto, hfrom, hpromo, hcap, hcast⟩ :=
    move_ep_capture g f t ep promo g' piece victim mv hInvP hf ht hepB hept hepf
      hpiece hpawn hepS hvic htEmpty hfind hflag hdy hnolast hmove
  have hvpos : victim.position = ep := (InvP_at g hInvP ep victim hepB hvic).1
  have hvking : isKingType victim.type = false :=
    isPawnType_not_king victim.type hvicPawn
  have hlast : g'.history.getLast? = some entry := by
    rw [hh]
    exact List.getLast?_concat _
  obtain ⟨hu1, hu2⟩ := undo_ep_restore g' g'' f t ep entry victim
    (pushedPiece piece f t) hInvG' hf ht hepB hept hlast hto hfrom hpromo hcap
    hcast hvpos hvking h2 (isPawnType_not_king piece.type hpawn) hundo
  exact ⟨h1, h2, ⟨entry, hh, hcap⟩, hu1, hu2⟩

/-- The white pawn captured en passant on b4 in the C3/C6 scenario. -/
def victimC6 : ChessPiece := ⟨Piece.WHITE_PAWN, Color.w, ⟨1, 4⟩, [⟨1, 6⟩]⟩

def pawnC6 : ChessPiece := ⟨Piece.BLACK_PAWN, Color.b, ⟨0, 4⟩, []⟩

/-- The black a4-pawn takes b4 en passant (destination b3 under the engine's
color convention at generation time). -/
def gameC6m : Chesspirito := getOk (gameC3w.move ⟨0, 4⟩ ⟨1, 5⟩ Promotion.Q)

def gameC6u : Chesspirito := getOk gameC6m.undo

theorem en_passant_capture_and_undo_witness :
    gameC3w.enPassantable = some ⟨1, 4⟩ ∧
    gameC3w.getSquare ⟨1, 4⟩ = some victimC6 ∧
    gameC3w.move ⟨0, 4⟩ ⟨1, 5⟩ Promotion.Q = Except.ok gameC6m ∧
    gameC6m.undo = Except.ok gameC6u ∧
    gameC6m.getSquare ⟨1, 4⟩ = none ∧
    gameC6u.getSquare ⟨1, 4⟩ = some victimC6 ∧
    gameC6u.getSquare ⟨1, 5⟩ = none := by
  have h := en_passant_capture_and_undo gameC3w ⟨0, 4⟩ ⟨1, 5⟩ ⟨1, 4⟩ Promotion.Q
    gameC6m gameC6u pawnC6 victimC6 ⟨⟨0, 4⟩, ⟨1, 5⟩, false, true, true⟩
    (by decide) (by rfl) (by rfl) (by rfl) (by decide) (by decide)
    (by decide) (by decide) (by decide) (by decide) (by decide) (by decide)
    (by decide) (by decide) (by decide) (by decide) (by rfl) (by rfl)
  exact ⟨by decide, by decide, by rfl, by rfl, h.1, h.2.2.2.1, h.2.2.2.2⟩
